import Mathlib

/-!
Meridian: entry point, metrics collector and admin panel.

A shallow embedding of three parts of the Meridian server and the properties
proved about them:

* `Meridian.Cmd`    : `cmd/meridian-server/main.go` (signal handler, option parsing);
* `Meridian.Metrics` : `internal/server/metrics.go` (the Prometheus collector);
* `Meridian.Admin`  : `internal/admin/admin.go` and `internal/admin/auth.go`.

Definitions come first, theorems follow at the end of the file.
-/

set_option autoImplicit false

namespace Meridian

/-! ## cmd/meridian-server/main.go -/

namespace Cmd

/-- The signals of `syscall` that reach the handler.  `signal.Notify` registers
the first four; `other` stands for any further signal number and only serves to
give the `default` arm of the switch a meaning. -/
inductive Signal where
  | SIGHUP
  | SIGINT
  | SIGTERM
  | SIGQUIT
  | other (n : Nat)
  deriving DecidableEq, Repr

/-- How the process ends: with the status given to `os.Exit` (or 0 on the
return from `main`), or in `log.Fatal` (package `internal/log`, which is not
among the sources: it logs the message and ends the process). -/
inductive Termination where
  | status (code : Int)
  | fatal (msg : String)
  deriving DecidableEq, Repr

/-- What the signal goroutine and the two cleanup closures of `main` read and
change.  `pidfile`, `cpuprofile`, `memprofile` and `nohup` are the flags of
these names; `createErr` and `writeErr` are the errors that
`os.Create(memprofile)` and `pprof.WriteHeapProfile(f)` return when they are
called (`none` for nil); `pidcleanedup` and `pprofcleanedup` are the variables
of these names.  The rest records effects: `warned` the
`log.Warnf("signal: %v", s)` lines, `removed` the files given to `os.Remove`,
`cpuProfileStops` the calls of `pprof.StopCPUProfile`, `heapProfiles` the
files a heap profile was written to, `shutdown` the values the goroutine puts
on the channel handed to the server as `Options.Shutdown`, and `ended` how the
process has ended, if it has. -/
structure Proc where
  nohup : Bool
  pidfile : String
  cpuprofile : String
  memprofile : String
  createErr : Option String
  writeErr : Option String
  pidcleanedup : Bool
  pprofcleanedup : Bool
  warned : List Signal
  removed : List String
  cpuProfileStops : Nat
  heapProfiles : List String
  shutdown : List Bool
  ended : Option Termination
  deriving DecidableEq, Repr

/-- The closure `pprofcleanup` of `main`. -/
def pprofcleanup (p : Proc) : Proc :=
  if p.pprofcleanedup then p
  else
    let p1 : Proc :=
      if p.cpuprofile ≠ "" then { p with cpuProfileStops := p.cpuProfileStops + 1 } else p
    if p1.memprofile ≠ "" then
      match p1.createErr with
      | some err =>
        { p1 with ended := some (Termination.fatal ("could not create memory profile: " ++ err)) }
      | none =>
        match p1.writeErr with
        | some err =>
          { p1 with
            ended := some (Termination.fatal ("could not write memory profile: " ++ err)) }
        | none =>
          { p1 with heapProfiles := p1.heapProfiles ++ [p1.memprofile], pprofcleanedup := true }
    else { p1 with pprofcleanedup := true }

/-- The closure `pidcleanup` of `main`. -/
def pidcleanup (p : Proc) : Proc :=
  if p.pidfile ≠ "" then
    if p.pidcleanedup then p
    else { p with removed := p.removed ++ [p.pidfile], pidcleanedup := true }
  else p

/-- One iteration of `for s := range c { ... }` in `main`, in a process that
has not ended.  When `log.Fatal` ends the process inside `pprofcleanup`, the
switch is not reached. -/
def handleSignal (s : Signal) (p : Proc) : Proc :=
  if s = Signal.SIGHUP && p.nohup then
    p
  else
    let p1 : Proc := { p with warned := p.warned ++ [s] }
    let p2 := pidcleanup p1
    let p3 := pprofcleanup p2
    match p3.ended with
    | some _ => p3
    | none =>
      match s with
      | Signal.SIGHUP => { p3 with ended := some (Termination.status 1) }
      | Signal.SIGINT => { p3 with ended := some (Termination.status 2) }
      | Signal.SIGQUIT => { p3 with ended := some (Termination.status 3) }
      | Signal.SIGTERM => { p3 with shutdown := p3.shutdown ++ [true] }
      | Signal.other _ => { p3 with ended := some (Termination.status (-1)) }

/-- The goroutine as a whole: signals are taken from the channel one by one
until the process ends. -/
def signalLoop : List Signal → Proc → Proc
  | [], p => p
  | s :: rest, p =>
    let p1 := handleSignal s p
    if p1.ended.isSome then p1 else signalLoop rest p1

/-- The end of `main`: `if err := server.Serve(opts); err != nil { log.Fatal(err) }`,
then the return from `main`, on which the deferred `pidcleanup()` and
`pprofcleanup()` run (in this order, the reverse of their `defer` statements)
and the process ends with status 0. -/
def mainAfterServe (p : Proc) (serveErr : Option String) : Termination :=
  match serveErr with
  | some e => Termination.fatal e
  | none =>
    match (pprofcleanup (pidcleanup p)).ended with
    | some t => t
    | none => Termination.status 0

/-- How the process ends: the way the signal goroutine ended it, or else the
outcome of the end of `main` once `server.Serve` has returned. -/
def processEnd (p : Proc) (serveErr : Option String) : Termination :=
  match p.ended with
  | some t => t
  | none => mainAfterServe p serveErr

/-- The process environment: `os.Getenv`, which is `""` for an unset variable. -/
abbrev Env := String → String

/-- Go `getEnv(key, defaultValue)`. -/
def getEnv (env : Env) (key defaultValue : String) : String :=
  if env key ≠ "" then env key else defaultValue

/-- Go `strings.ToLower`.  Only the ASCII letters are mapped; the texts the
result is compared with ("yes", "no", "resp", "json", "true", "false", "0",
"1") contain no letter that a non-ASCII letter lowers to. -/
def ToLower (s : String) : String := s.map Char.toLower

/-- Go `getEnvBool(key, defaultValue)`. -/
def getEnvBool (env : Env) (key : String) (defaultValue : Bool) : Bool :=
  if env key ≠ "" then
    let v := ToLower (env key)
    if v = "1" ∨ v = "true" ∨ v = "yes" then true
    else if v = "0" ∨ v = "false" ∨ v = "no" then false
    else defaultValue
  else defaultValue

/-- Go `strconv.ParseUint(s, 10, 16)`: a non-empty run of decimal digits whose
value fits 16 bits, or an error. -/
def parseUint16 (s : String) : Option Nat :=
  if s.data ≠ [] ∧ s.data.all Char.isDigit then
    let n := s.data.foldl (fun acc c => acc * 10 + (c.toNat - 48)) 0
    if n < 65536 then some n else none
  else none

/-- The variables of `main` that the loop over `os.Args` sets. -/
structure Flags where
  nohup : Bool
  showEvioDisabled : Bool
  showThreadsDisabled : Bool
  spinlock : Bool
  devMode : Bool
  protectedMode : String
  appendOnly : Bool
  appendFileName : String
  queueFileName : String
  clientOutput : String
  httpTransport : Bool
  nargs : List String
  deriving DecidableEq, Repr

/-- The values the variables are declared with (`var ( ... )` in `main`, and the
package variable `httpTransport`); `arg0` is `os.Args[0]`. -/
def initialFlags (env : Env) (arg0 : String) : Flags :=
  { nohup := false
    showEvioDisabled := false
    showThreadsDisabled := false
    spinlock := false
    devMode := false
    protectedMode := getEnv env "MERIDIAN_PROTECTED_MODE" "no"
    appendOnly := getEnvBool env "MERIDIAN_APPENDONLY" true
    appendFileName := ""
    queueFileName := ""
    clientOutput := ""
    httpTransport := true
    nargs := [arg0] }

/-- How the loop over `os.Args[1:]` ends: with the usage text, the version
line, a message and `os.Exit(1)`, or with every argument consumed. -/
inductive ArgsResult where
  | help
  | version
  | exit1 (msg : String)
  | parsed (f : Flags)
  deriving DecidableEq, Repr

/-- The loop `for i := 1; i < len(os.Args); i++ { switch os.Args[i] { ... } }`
of `main`, on the arguments that are left. -/
def parseArgs : List String → Flags → ArgsResult
  | [], f => ArgsResult.parsed f
  | a :: rest, f =>
    if a = "--help" then ArgsResult.help
    else if a = "--version" then ArgsResult.version
    else if a = "--protected-mode" ∨ a = "-protected-mode" then
      match rest with
      | v :: rest1 =>
        if ToLower v = "no" then parseArgs rest1 { f with protectedMode := "no" }
        else if ToLower v = "yes" then parseArgs rest1 { f with protectedMode := "yes" }
        else ArgsResult.exit1 "protected-mode must be 'yes' or 'no'\n"
      | [] => ArgsResult.exit1 "protected-mode must be 'yes' or 'no'\n"
    else if a = "--dev" ∨ a = "-dev" then parseArgs rest { f with devMode := true }
    else if a = "--nohup" ∨ a = "-nohup" then parseArgs rest { f with nohup := true }
    else if a = "--spinlock" ∨ a = "-spinlock" then parseArgs rest { f with spinlock := true }
    else if a = "--appendonly" ∨ a = "-appendonly" then
      match rest with
      | v :: rest1 =>
        if ToLower v = "no" then parseArgs rest1 { f with appendOnly := false }
        else if ToLower v = "yes" then parseArgs rest1 { f with appendOnly := true }
        else ArgsResult.exit1 "appendonly must be 'yes' or 'no'\n"
      | [] => ArgsResult.exit1 "appendonly must be 'yes' or 'no'\n"
    else if a = "--appendfilename" ∨ a = "-appendfilename" then
      match rest with
      | v :: rest1 =>
        if v = "" then ArgsResult.exit1 "appendfilename must have a value\n"
        else parseArgs rest1 { f with appendFileName := v }
      | [] => ArgsResult.exit1 "appendfilename must have a value\n"
    else if a = "--queuefilename" ∨ a = "-queuefilename" then
      match rest with
      | v :: rest1 =>
        if v = "" then ArgsResult.exit1 "queuefilename must have a value\n"
        else parseArgs rest1 { f with queueFileName := v }
      | [] => ArgsResult.exit1 "queuefilename must have a value\n"
    else if a = "-o" then
      match rest with
      | v :: rest1 =>
        if ToLower v = "resp" ∨ ToLower v = "json" then
          parseArgs rest1 { f with clientOutput := ToLower v }
        else ArgsResult.exit1 "output must be 'resp' or 'json'\n"
      | [] => ArgsResult.exit1 "output must be 'resp' or 'json'\n"
    else if a = "--http-transport" ∨ a = "-http-transport" then
      match rest with
      | v :: rest1 =>
        if ToLower v = "1" ∨ ToLower v = "true" ∨ ToLower v = "yes" then
          parseArgs rest1 { f with httpTransport := true }
        else if ToLower v = "0" ∨ ToLower v = "false" ∨ ToLower v = "no" then
          parseArgs rest1 { f with httpTransport := false }
        else ArgsResult.exit1 "http-transport must be 'yes' or 'no'\n"
      | [] => ArgsResult.exit1 "http-transport must be 'yes' or 'no'\n"
    else if a = "--threads" ∨ a = "-threads" then
      match rest with
      | v :: rest1 =>
        match parseUint16 v with
        | none => ArgsResult.exit1 "threads must be a valid number\n"
        | some _ => parseArgs rest1 { f with showThreadsDisabled := true }
      | [] => ArgsResult.exit1 "threads must be a valid number \n"
    else if a = "--evio" ∨ a = "-evio" then
      match rest with
      | v :: rest1 =>
        if ToLower v = "no" ∨ ToLower v = "yes" then
          parseArgs rest1 { f with showEvioDisabled := true }
        else ArgsResult.exit1 "evio must be 'yes' or 'no'\n"
      | [] => ArgsResult.exit1 "evio must be 'yes' or 'no'\n"
    else parseArgs rest { f with nargs := f.nargs ++ [a] }

/-- What `main` does with its arguments before the standard flags are parsed:
the two webhook test servers, which never reach `server.Serve`, or the loop
over the non-standard options. -/
inductive Startup where
  | webhookHTTP (port : String)
  | webhookGRPC (port : String)
  | args (r : ArgsResult)
  deriving DecidableEq, Repr

/-- The start of `main` on `os.Args` (the program name first). -/
def startup (env : Env) (osArgs : List String) : Startup :=
  match osArgs with
  | [_, "--webhook-http-consumer-port", port] => Startup.webhookHTTP port
  | [_, "--webhook-grpc-consumer-port", port] => Startup.webhookGRPC port
  | arg0 :: rest => Startup.args (parseArgs rest (initialFlags env arg0))
  | [] => Startup.args (ArgsResult.parsed (initialFlags env ""))

/-- The field `ProtectedMode` of the `server.Options` that `main` builds, when
the start of `main` gets as far as building them. -/
def optsProtectedMode (env : Env) (osArgs : List String) : Option String :=
  match startup env osArgs with
  | Startup.args (ArgsResult.parsed f) => some f.protectedMode
  | _ => none

/-- The start state of the signal goroutine of a server started with a pid
file and without --nohup or profiles. -/
def procStart : Proc :=
  { nohup := false, pidfile := "/var/run/meridian.pid", cpuprofile := "", memprofile := "",
    createErr := none, writeErr := none, pidcleanedup := false, pprofcleanedup := false,
    warned := [], removed := [], cpuProfileStops := 0, heapProfiles := [],
    shutdown := [], ended := none }

/-- The start state of a server started with -memprofile on a path in a
directory that does not exist. -/
def procProfileFails : Proc :=
  { procStart with
    memprofile := "/nonexistent/mem.prof"
    createErr := some "open /nonexistent/mem.prof: no such file or directory" }

/-- A result of the loop that, when it is a full parse, has the given
protectedMode. -/
def KeepsProtectedMode (r : ArgsResult) (pm : String) : Prop :=
  ∀ g, r = ArgsResult.parsed g → g.protectedMode = pm

end Cmd

/-! ## internal/server/metrics.go -/

namespace Metrics

/-- A descriptor, as built by `prometheus.NewDesc(fqName, help, variableLabels, nil)`. -/
structure Desc where
  fqName : String
  help : String
  variableLabels : List String
  deriving DecidableEq, Repr

/-- The package variable `metricDescriptions`, entry by entry.  In Go it is a
map: its keys are distinct and a `range` over it visits the entries in an
order that is not specified. -/
def metricDescriptions : List (String × Desc) :=
  [ ("num_collections", ⟨"meridian_collections", "Total number of collections", []⟩),
    ("pid", ⟨"meridian_pid", "", []⟩),
    ("aof_size", ⟨"meridian_aof_size_bytes", "", []⟩),
    ("num_hooks", ⟨"meridian_hooks", "", []⟩),
    ("in_memory_size", ⟨"meridian_in_memory_size_bytes", "", []⟩),
    ("heap_size", ⟨"meridian_heap_size_bytes", "", []⟩),
    ("heap_released", ⟨"meridian_memory_reap_released_bytes", "", []⟩),
    ("max_heap_size", ⟨"meridian_memory_max_heap_size_bytes", "", []⟩),
    ("avg_item_size", ⟨"meridian_avg_item_size_bytes", "", []⟩),
    ("pointer_size", ⟨"meridian_pointer_size_bytes", "", []⟩),
    ("cpus", ⟨"meridian_num_cpus", "", []⟩),
    ("meridian_connected_clients", ⟨"meridian_connected_clients", "", []⟩),
    ("meridian_total_connections_received", ⟨"meridian_connections_received_total", "", []⟩),
    ("meridian_total_messages_sent", ⟨"meridian_messages_sent_total", "", []⟩),
    ("meridian_expired_keys", ⟨"meridian_expired_keys_total", "", []⟩),
    ("collection_objects",
      ⟨"meridian_collection_objects", "Total number of objects per collection", ["col"]⟩),
    ("collection_points",
      ⟨"meridian_collection_points", "Total number of points per collection", ["col"]⟩),
    ("collection_strings",
      ⟨"meridian_collection_strings", "Total number of strings per collection", ["col"]⟩),
    ("collection_weight",
      ⟨"meridian_collection_weight_bytes", "Total weight of collection in bytes", ["col"]⟩),
    ("server_info", ⟨"meridian_server_info", "Server info", ["id", "version"]⟩),
    ("replication",
      ⟨"meridian_replication_info", "Replication info",
        ["role", "following", "caught_up", "caught_up_once"]⟩),
    ("start_time", ⟨"meridian_start_time_seconds", "", []⟩) ]

/-- The map lookup `metricDescriptions[key]`; `none` is the nil pointer Go
yields for a key that is not in the map. -/
def descOf (key : String) : Option Desc :=
  (metricDescriptions.find? (fun p => p.1 = key)).map Prod.snd

/-- Go `prometheus.ValueType`; the collector only uses `GaugeValue`. -/
inductive ValueType where
  | CounterValue
  | GaugeValue
  | UntypedValue
  deriving DecidableEq, Repr

/-- A Go `string` where its bytes matter: the label values, which come from
clients and from the configuration, are byte strings and need not be valid
UTF-8. -/
abbrev Bytes := List (Fin 256)

/-- A string literal of the source, or a text formatted by `fmt`, as bytes: all
of them are ASCII, one byte a character. -/
def ascii (s : String) : Bytes := s.toList.map (fun c => Fin.ofNat c.toNat)

/-- The table `first` of `unicode/utf8` joined with `acceptRanges`: for the
first byte of a sequence of more than one byte, the ranges in which the
following bytes must lie; `none` for a byte that cannot start a sequence
(`xx`).  Bytes below 0x80 (`RuneSelf`) are handled before the table is used. -/
def utf8First (b : Nat) : Option (List (Nat × Nat)) :=
  if 0xC2 ≤ b ∧ b ≤ 0xDF then some [(0x80, 0xBF)]
  else if b = 0xE0 then some [(0xA0, 0xBF), (0x80, 0xBF)]
  else if (0xE1 ≤ b ∧ b ≤ 0xEC) ∨ b = 0xEE ∨ b = 0xEF then some [(0x80, 0xBF), (0x80, 0xBF)]
  else if b = 0xED then some [(0x80, 0x9F), (0x80, 0xBF)]
  else if b = 0xF0 then some [(0x90, 0xBF), (0x80, 0xBF), (0x80, 0xBF)]
  else if 0xF1 ≤ b ∧ b ≤ 0xF3 then some [(0x80, 0xBF), (0x80, 0xBF), (0x80, 0xBF)]
  else if b = 0xF4 then some [(0x80, 0x8F), (0x80, 0xBF), (0x80, 0xBF)]
  else none

/-- The loop of `utf8.ValidString`, byte by byte: `need` are the ranges of the
bytes still owed to the sequence that was begun; a string that ends inside a
sequence is not valid. -/
def validLoop : List (Nat × Nat) → Bytes → Bool
  | [], [] => true
  | _ :: _, [] => false
  | [], b :: rest =>
    if b.val < 0x80 then validLoop [] rest
    else
      match utf8First b.val with
      | none => false
      | some need => validLoop need rest
  | (lo, hi) :: need, b :: rest =>
    if lo ≤ b.val ∧ b.val ≤ hi then validLoop need rest else false

/-- Go `utf8.ValidString`. -/
def ValidString (s : Bytes) : Bool := validLoop [] s

/-- A constant metric: its descriptor, type, value and the values of the
descriptor's variable labels, in the descriptor's order.  A `float64` value is
kept as the rational number it stands for (`float64(n)` of an `int` as `n`,
which is exact below 2^53). -/
structure Metric where
  desc : Desc
  valueType : ValueType
  value : ℚ
  labelValues : List Bytes
  deriving DecidableEq

/-- Go `prometheus.MustNewConstMetric`: it panics (`none`) on a nil descriptor,
when the number of label values is not the number of variable labels, and when
a label value is not valid UTF-8. -/
def MustNewConstMetric (desc : Option Desc) (valueType : ValueType) (value : ℚ)
    (labelValues : List Bytes) : Option Metric :=
  match desc with
  | none => none
  | some d =>
    if labelValues.length = d.variableLabels.length ∧
        labelValues.all ValidString = true then
      some { desc := d, valueType := valueType, value := value, labelValues := labelValues }
    else none

/-- The dynamic type of a value stored in the stats map `map[string]interface{}`;
`nil` is what a lookup of a missing key gives, and `other` is any value that
is not of a numeric type (a string, a bool, a nested map). -/
inductive StatVal where
  | float64 (v : ℚ)
  | int64 (v : Int)
  | uint64 (v : Nat)
  | float32 (v : ℚ)
  | int (v : Int)
  | int32 (v : Int)
  | uint32 (v : Nat)
  | int16 (v : Int)
  | uint16 (v : Nat)
  | int8 (v : Int)
  | uint8 (v : Nat)
  | other (text : String)
  | nil

/-- Go `toFloat(val)`: `(v, true)` is `some v`, `(0, false)` is `none`. -/
def toFloat (val : StatVal) : Option ℚ :=
  match val with
  | StatVal.float64 v => some v
  | StatVal.int64 v => some (v : ℚ)
  | StatVal.uint64 v => some (v : ℚ)
  | StatVal.float32 v => some v
  | StatVal.int v => some (v : ℚ)
  | StatVal.int32 v => some (v : ℚ)
  | StatVal.uint32 v => some (v : ℚ)
  | StatVal.int16 v => some (v : ℚ)
  | StatVal.uint16 v => some (v : ℚ)
  | StatVal.int8 v => some (v : ℚ)
  | StatVal.uint8 v => some (v : ℚ)
  | StatVal.other _ => none
  | StatVal.nil => none

/-- Modelled from the spec: the geometry of an item, as far as the counters of
a collection tell geometries apart (package `internal/collection` is not among
the sources): a Point, a string payload, or any other geometry. -/
inductive Geom where
  | point
  | string
  | other
  deriving DecidableEq, Repr

/-- Modelled from the spec: an item of a collection (section 3, "Item"), with
its identifier, its geometry and its approximate byte cost. -/
structure Item where
  id : String
  geometry : Geom
  weight : Nat
  deriving DecidableEq, Repr

/-- Modelled from the spec: a collection (section 3, "Collection"), its items
keyed by identifier. -/
structure Collection where
  items : List Item
  deriving DecidableEq, Repr

namespace Collection

/-- Modelled from the spec: `Count()`, the number of items. -/
def Count (c : Collection) : Int := (c.items.length : Int)

/-- Modelled from the spec: `PointCount()`, "point_count = |{item :
item.geometry is Point}|". -/
def PointCount (c : Collection) : Int :=
  ((c.items.filter (fun it => it.geometry = Geom.point)).length : Int)

/-- Modelled from the spec: `StringCount()`, "string_count counts items whose
geometry encoding is string payload". -/
def StringCount (c : Collection) : Int :=
  ((c.items.filter (fun it => it.geometry = Geom.string)).length : Int)

/-- Modelled from the spec: `TotalWeight()`, the byte cost of all items. -/
def TotalWeight (c : Collection) : Int :=
  (((c.items.map Item.weight).sum : Nat) : Int)

/-- Modelled from the spec: `set`, which "replaces or inserts": the item with
the same identifier is replaced, a new identifier is added. -/
def set (c : Collection) (it : Item) : Collection :=
  if c.items.any (fun old => old.id = it.id) then
    { items := c.items.map (fun old => if old.id = it.id then it else old) }
  else
    { items := c.items ++ [it] }

end Collection

/-- Modelled from the spec: the catalog (section 3, "Catalog"), the mapping
from collection name to collection, as the list of its entries.  The names
are the byte strings the clients send. -/
abbrev Catalog := List (Bytes × Collection)

/-- Modelled from the spec: the command `SET key id ...` on the catalog: "a
collection is created lazily by the first write". -/
def Catalog.SET (cat : Catalog) (key : Bytes) (it : Item) : Catalog :=
  if cat.any (fun e => e.1 = key) then
    cat.map (fun e => if e.1 = key then (e.1, e.2.set it) else e)
  else
    cat ++ [(key, Collection.set { items := [] } it)]

/-- The part of `s.config` the collector reads. -/
structure Config where
  serverID : Bytes
  followHost : Bytes
  followPort : Int
  deriving DecidableEq, Repr

/-- The state of the server that `Collect` reads.  `stats` is the map `m`
after `s.basicStats(m)` and `s.extStats(m)` (neither is among the sources; the
comment in `metricDescriptions` says which descriptors are "taken from
basicStats() / extStats()" and that the labelled ones "are NOT"), `started` is
`s.started.Unix()`, `caughtUp` and `caughtUpOnce` are the results of the
methods of these names, `version` is `core.Version`, `cols` is the catalog
`s.cols`. -/
structure Server where
  config : Config
  stats : String → StatVal
  started : Int
  caughtUp : Bool
  caughtUpOnce : Bool
  version : Bytes
  cols : Catalog

/-- Go `fmt.Sprintf("%t", b)`. -/
def fmtBool (b : Bool) : Bytes := ascii (if b then "true" else "false")

/-- Go `fmt.Sprintf("%s:%d", host, port)`. -/
def fmtHostPort (host : Bytes) (port : Int) : Bytes :=
  host ++ ascii ":" ++ ascii (toString port)

/-- A run of `Collect`: the metrics sent on `ch` so far, in order, and whether
a panic has ended the run. -/
structure Run where
  sent : List Metric
  panicked : Bool
  deriving DecidableEq

/-- The statement `ch <- prometheus.MustNewConstMetric(...)`: the metric is
built and sent, or the run ends in the panic of `MustNewConstMetric`; nothing
happens in a run that has ended. -/
def send (r : Run) (m : Option Metric) : Run :=
  if r.panicked then r
  else
    match m with
    | none => { r with panicked := true }
    | some x => { r with sent := r.sent ++ [x] }

/-- The first loop of `Collect`, over the entries of `metricDescriptions` in
the order `range` visits them: a gauge without label values for every key
under which the stats hold a number. -/
def collectStats (stats : String → StatVal) : List (String × Desc) → Run → Run
  | [], r => r
  | (metric, descr) :: rest, r =>
    match toFloat (stats metric) with
    | none => collectStats stats rest r
    | some val =>
      collectStats stats rest
        (send r (MustNewConstMetric (some descr) ValueType.GaugeValue val []))

/-- The label values of the replication gauge, `replLbls`. -/
def replLbls (s : Server) : List Bytes :=
  if s.config.followHost ≠ [] then
    [ascii "follower", fmtHostPort s.config.followHost s.config.followPort,
      fmtBool s.caughtUp, fmtBool s.caughtUpOnce]
  else
    [ascii "leader", ascii "", ascii "", ascii ""]

/-- The callback of `s.cols.Scan` in `Collect`, on one entry: four gauges. -/
def collectCol (key : Bytes) (col : Collection) (r : Run) : Run :=
  let r1 := send r (MustNewConstMetric (descOf "collection_objects") ValueType.GaugeValue
    (col.Count : ℚ) [key])
  let r2 := send r1 (MustNewConstMetric (descOf "collection_points") ValueType.GaugeValue
    (col.PointCount : ℚ) [key])
  let r3 := send r2 (MustNewConstMetric (descOf "collection_strings") ValueType.GaugeValue
    (col.StringCount : ℚ) [key])
  send r3 (MustNewConstMetric (descOf "collection_weight") ValueType.GaugeValue
    (col.TotalWeight : ℚ) [key])

/-- Go `s.cols.Scan(...)` in `Collect`: the callback on every entry (it always
returns true, so the scan visits them all). -/
def scanCols : Catalog → Run → Run
  | [], r => r
  | (key, col) :: rest, r => scanCols rest (collectCol key col r)

/-- Go `(s *Server) Collect(ch)`: the metrics sent on `ch`, in order, and
whether a `MustNewConstMetric` has panicked.  `order` is the order in which
the `range` over `metricDescriptions` visits the entries. -/
def Collect (s : Server) (order : List (String × Desc)) : Run :=
  let r0 : Run := { sent := [], panicked := false }
  let r1 := collectStats s.stats order r0
  let r2 := send r1 (MustNewConstMetric (descOf "server_info") ValueType.GaugeValue 1
    [s.config.serverID, s.version])
  let r3 := send r2 (MustNewConstMetric (descOf "start_time") ValueType.GaugeValue
    (s.started : ℚ) [])
  let r4 := send r3 (MustNewConstMetric (descOf "replication") ValueType.GaugeValue 1
    (replLbls s))
  scanCols s.cols r4

/-- The catalog of `metrics_basic_test` after its four SET commands. -/
def testCatalog : Catalog :=
  (((Catalog.SET [] (ascii "metrics_test_1")
      { id := "1", geometry := Geom.point, weight := 24 }).SET
    (ascii "metrics_test_2") { id := "2", geometry := Geom.point, weight := 24 }).SET
    (ascii "metrics_test_2") { id := "3", geometry := Geom.point, weight := 24 }).SET
    (ascii "metrics_test_2") { id := "truck1:driver", geometry := Geom.string, weight := 24 }

/-- A leader holding the catalog of `metrics_basic_test`. -/
def testServer : Server :=
  { config := { serverID := ascii "a1b2", followHost := [], followPort := 0 }
    stats := fun k => if k = "num_collections" then StatVal.int 2 else StatVal.nil
    started := 1700000000
    caughtUp := false
    caughtUpOnce := false
    version := ascii "1.0.0"
    cols := testCatalog }

/-- The same server, following a host whose name is the byte h and the byte
0xff, which is not valid UTF-8. -/
def badHostServer : Server :=
  { testServer with
    config := { serverID := ascii "a1b2", followHost := ascii "h" ++ [255], followPort := 9851 } }

/-- A gauge of the collector, from the name, help text and labels of its
descriptor, its value and its label values. -/
def gauge (fqName help : String) (labels : List String) (value : ℚ)
    (labelValues : List Bytes) : Metric :=
  { desc := { fqName := fqName, help := help, variableLabels := labels }
    valueType := ValueType.GaugeValue
    value := value
    labelValues := labelValues }

/-- The four gauges expected for the collection `col` named `key`. -/
def colGauges (key : Bytes) (col : Collection) : List Metric :=
  [ gauge "meridian_collection_objects" "Total number of objects per collection"
      ["col"] (col.Count : ℚ) [key],
    gauge "meridian_collection_points" "Total number of points per collection"
      ["col"] (col.PointCount : ℚ) [key],
    gauge "meridian_collection_strings" "Total number of strings per collection"
      ["col"] (col.StringCount : ℚ) [key],
    gauge "meridian_collection_weight_bytes" "Total weight of collection in bytes"
      ["col"] (col.TotalWeight : ℚ) [key] ]

/-- Go `strings.Contains` on the characters of two texts: `substr` starts at some
position of `s`. -/
def containsChars : List Char → List Char → Bool
  | [], substr => substr.isEmpty
  | c :: rest, substr => substr.isPrefixOf (c :: rest) || containsChars rest substr

/-- Go `strings.Contains(s, substr)`, as `metrics_basic_test` uses it on the
index page. -/
def strContains (s substr : String) : Bool := containsChars s.data substr.data

/-- Go `(s *Server) MetricsIndexHandler(w, r)`: the bytes given to `w.Write`.
`version` is the constant `core.Version` (package `core` is not among the
sources). -/
def MetricsIndexHandler (version : String) : String :=
  "<html><head>\n<title>Meridian " ++ version ++ "</title></head>\n<body><h1>Meridian " ++
    version ++ "</h1>\n<p><a href='/metrics'>Metrics</a></p>\n</body></html>"

end Metrics

/-! ## internal/admin/admin.go and internal/admin/auth.go -/

namespace Admin

/-- A byte. -/
abbrev Byte := Fin 256

/-- A Go `string` or `[]byte`: a sequence of bytes (a nil slice is the empty
sequence). -/
abbrev GoString := List Byte

/-- A string literal of the source; all of them are ASCII, one byte a character. -/
def lit (s : String) : GoString := s.toList.map (fun c => Fin.ofNat c.toNat)

/-- Go `strings.HasPrefix`. -/
def HasPrefix (s pre : GoString) : Bool := pre.isPrefixOf s

/-- Go `strings.HasSuffix`. -/
def HasSuffix (s suf : GoString) : Bool := suf.isSuffixOf s

/-- Go `strings.TrimPrefix`. -/
def TrimPrefix (s pre : GoString) : GoString :=
  if HasPrefix s pre then s.drop pre.length else s

/-- Go `strings.TrimSuffix`. -/
def TrimSuffix (s suf : GoString) : GoString :=
  if HasSuffix s suf then s.take (s.length - suf.length) else s

/-- Go `strings.Contains`: `substr` starts at some position of `s`. -/
def Contains (s substr : GoString) : Bool :=
  match s with
  | [] => substr.isEmpty
  | c :: rest => HasPrefix (c :: rest) substr || Contains rest substr

/-- The path separator `/`. -/
def slash : Byte := 47

/-- The dot `.`. -/
def dot : Byte := 46

/-- Go `filepath.Base` (Unix): the last element of the path, after the trailing
slashes are removed; "." for the empty path and "/" for a path of slashes. -/
def Base (path : GoString) : GoString :=
  if path = [] then lit "."
  else
    let stripped := (path.reverse.dropWhile (fun c => c = slash)).reverse
    let last := (stripped.reverse.takeWhile (fun c => c ≠ slash)).reverse
    if last = [] then lit "/" else last

/-- The loop of `filepath.Ext` on the reversed path: it walks back from the
end, stops at a slash and returns the suffix that starts at the first dot met. -/
def extLoop : List Byte → GoString → GoString
  | [], _ => []
  | c :: rest, seen =>
    if c = slash then []
    else if c = dot then c :: seen
    else extLoop rest (c :: seen)

/-- Go `filepath.Ext` (Unix). -/
def Ext (path : GoString) : GoString := extLoop path.reverse []

/-- Go `Config`. -/
structure Config where
  Username : GoString
  Password : GoString
  JWTSecret : GoString
  deriving DecidableEq

/-- The result of `os.ReadFile` or `files.ReadFile`: the data, an error for
which `os.IsNotExist` holds, or another error. -/
inductive ReadResult where
  | data (bytes : GoString)
  | notExist
  | failed (err : String)
  deriving DecidableEq

/-- Go `Claims`, with the registered claims the package sets; times are in
seconds since the epoch. -/
structure Claims where
  Username : GoString
  ExpiresAt : Int
  IssuedAt : Int
  Issuer : GoString
  deriving DecidableEq

/-- A `*jwt.Token` as returned by `jwt.ParseWithClaims`: whether its `Claims`
field is a `*Claims` (and then which), and its `Valid` field. -/
structure Token where
  claims : Option Claims
  valid : Bool
  deriving DecidableEq

/-- The request of `HandleAPILogin` after `json.Unmarshal`. -/
structure LoginRequest where
  Username : GoString
  Password : GoString
  deriving DecidableEq

/-- What the package takes from outside: the two file systems, the standard
library and the JWT library.  `now` is `time.Now()` in nanoseconds since the
epoch on its first and second call in `GenerateJWT`; `randRead` is the result
of `rand.Read` on a buffer of 32 bytes (the bytes read, or `none` for an
error). -/
structure World where
  osReadFile : GoString → ReadResult
  embedReadFile : GoString → ReadResult
  TypeByExtension : GoString → GoString
  Unmarshal : GoString → Option LoginRequest
  SignedString : Claims → GoString → Except String GoString
  ParseWithClaims : GoString → GoString → Except String Token
  now : Int
  nowAgain : Int
  randRead : Option GoString

/-- A value of the maps handed to `writeJSONResponse`. -/
inductive JSONValue where
  | bool (b : Bool)
  | string (s : GoString)
  | number (n : Int)
  deriving DecidableEq

/-- The body of a response: the bytes given to `writeHTTPResponse`, or the map
given to `writeJSONResponse`, which `json.Marshal` turns into the bytes (it
does not fail on a map from strings to booleans, strings and integers). -/
inductive Body where
  | bytes (b : GoString)
  | json (fields : List (String × JSONValue))
  deriving DecidableEq

/-- What `writeHTTPResponse` formats into the payload it writes to `wr`: the
status line, the content type, the extra headers and the body. -/
structure Response where
  status : String
  contentType : GoString
  headers : List GoString
  body : Body
  deriving DecidableEq

/-- The calls a handler makes that the properties speak about. -/
inductive Event where
  | writeHTTPFile (path : GoString)
  | osReadFile (name : GoString)
  | embedReadFile (name : GoString)
  | GenerateJWT (username : GoString)
  | ValidateJWT (token : GoString)
  deriving DecidableEq

/-- The outcome of a handler: the response written to `wr` and the calls made
on the way, in order. -/
structure Result where
  response : Response
  events : List Event
  deriving DecidableEq

/-- Go `writeHTTPResponse`. -/
def writeHTTPResponse (status : String) (contentType : GoString) (headers : List GoString)
    (body : Body) : Response :=
  { status := status, contentType := contentType, headers := headers, body := body }

/-- Go `writeJSONResponse`. -/
def writeJSONResponse (status : String) (data : List (String × JSONValue)) : Response :=
  writeHTTPResponse status (lit "application/json") [] (Body.json data)

/-- The variable `embedPath` of `writeHTTPFile` ("Build embed path:
/admin/foo -> static/foo"). -/
def embedPathOf (path : GoString) : GoString :=
  let embedPath := lit "static" ++ TrimPrefix path (lit "/admin")
  if embedPath = lit "static" ∨ embedPath = lit "static/" then lit "static/index.html"
  else embedPath

/-- Go `writeHTTPFile`. -/
def writeHTTPFile (w : World) (path : GoString) (devMode : Bool) : Result :=
  let embedPath := embedPathOf path
  let first : ReadResult × List Event :=
    if devMode then
      (w.osReadFile (lit "internal/admin/" ++ embedPath),
        [Event.osReadFile (lit "internal/admin/" ++ embedPath)])
    else (ReadResult.notExist, [])
  let second : ReadResult × List Event :=
    match first.1 with
    | ReadResult.notExist =>
      (w.embedReadFile embedPath, first.2 ++ [Event.embedReadFile embedPath])
    | _ => first
  let response :=
    match second.1 with
    | ReadResult.notExist =>
      writeHTTPResponse "404 Not Found" (lit "text/html") []
        (Body.bytes (lit "<h1>404 Not Found</h1>\n"))
    | ReadResult.failed _ =>
      writeHTTPResponse "500 Internal Server Error" (lit "text/html") []
        (Body.bytes (lit "<h1>500 Internal Server Error</h1>\n"))
    | ReadResult.data bytes =>
      let contentType0 := w.TypeByExtension (Ext path)
      let contentType :=
        if contentType0 = [] then lit "application/octet-stream" else contentType0
      writeHTTPResponse "200 OK" contentType [] (Body.bytes bytes)
  { response := response, events := Event.writeHTTPFile path :: second.2 }

/-- Go `HandleHTTP`. -/
def HandleHTTP (w : World) (url : GoString) (_config : Config) (devMode : Bool) : Result :=
  if (!HasPrefix url (lit "/admin/") && url != lit "/admin") || Contains url (lit "..") then
    { response := writeHTTPResponse "404 Not Found" (lit "text/html") []
        (Body.bytes (lit "<h1>404 Not Found</h1>\n")),
      events := [] }
  else if url = lit "/admin" ∨ url = lit "/admin/" then
    writeHTTPFile w (lit "/admin/index.html") devMode
  else
    let path := TrimPrefix url (lit "/admin")
    let pathNoSlash := TrimSuffix path (lit "/")
    if pathNoSlash ≠ [] ∧ Contains (Base pathNoSlash) (lit ".") = false then
      writeHTTPFile w (lit "/admin" ++ pathNoSlash ++ lit "/index.html") devMode
    else if HasSuffix url (lit "/") = true ∧ url ≠ lit "/admin/" then
      { response := writeHTTPResponse "307 Redirect" (lit "text/html")
          [lit "Location", url.take (url.length - 1)]
          (Body.bytes (lit "<h1>307 Redirect</h1>\n")),
        events := [] }
    else
      writeHTTPFile w url devMode

/-- Go `subtle.ConstantTimeByteEq(x, y uint8) int`:
`int((uint32(x^y) - 1) >> 31)`. -/
def ConstantTimeByteEq (x y : Byte) : Int :=
  ((((x.val ^^^ y.val) % 2 ^ 32 + 2 ^ 32 - 1) % 2 ^ 32) >>> 31 : Nat)

/-- Go `subtle.ConstantTimeCompare(x, y []byte) int`: 0 at once for different
lengths, else the bytes are xor-ed pairwise into an accumulator `v` of type
byte, which is compared with 0 at the end. -/
def ConstantTimeCompare (x y : GoString) : Int :=
  if x.length ≠ y.length then 0
  else
    let v : Nat := (List.zip x y).foldl (fun v p => (v ||| (p.1.val ^^^ p.2.val)) % 256) 0
    ConstantTimeByteEq (Fin.ofNat v) 0

/-- Go `ValidateCredentials`. -/
def ValidateCredentials (username password : GoString) (config : Config) : Bool :=
  let usernameMatch := decide (ConstantTimeCompare username config.Username = 1)
  let passwordMatch := decide (ConstantTimeCompare password config.Password = 1)
  usernameMatch && passwordMatch

/-- One second and 24 hours in nanoseconds. -/
def second : Int := 1000000000

/-- Go `GenerateJWT`: the token string and the expiry time in nanoseconds, or
the error of `SignedString`. -/
def GenerateJWT (w : World) (username secret : GoString) : Except String (GoString × Int) :=
  let expiresAt := w.now + 24 * 3600 * second
  let claims : Claims :=
    { Username := username
      ExpiresAt := expiresAt / second
      IssuedAt := w.nowAgain / second
      Issuer := lit "meridian-admin" }
  match w.SignedString claims secret with
  | Except.error err => Except.error err
  | Except.ok tokenString => Except.ok (tokenString, expiresAt)

/-- Go `ValidateJWT`; the last error is `jwt.ErrSignatureInvalid`. -/
def ValidateJWT (w : World) (tokenString secret : GoString) : Except String Claims :=
  match w.ParseWithClaims tokenString secret with
  | Except.error err => Except.error err
  | Except.ok token =>
    match token.claims, token.valid with
    | some claims, true => Except.ok claims
    | _, _ => Except.error "signature is invalid"

/-- Go `HandleAPILogin`. -/
def HandleAPILogin (w : World) (body : GoString) (config : Config) : Result :=
  if config.Username = [] ∨ config.Password = [] then
    { response := writeJSONResponse "403 Forbidden"
        [("ok", JSONValue.bool false),
         ("error", JSONValue.string (lit "Admin panel not configured"))],
      events := [] }
  else
    match w.Unmarshal body with
    | none =>
      { response := writeJSONResponse "400 Bad Request"
          [("ok", JSONValue.bool false),
           ("error", JSONValue.string (lit "Invalid request body"))],
        events := [] }
    | some req =>
      if ValidateCredentials req.Username req.Password config = false then
        { response := writeJSONResponse "401 Unauthorized"
            [("ok", JSONValue.bool false),
             ("error", JSONValue.string (lit "Invalid credentials"))],
          events := [] }
      else
        match GenerateJWT w req.Username config.JWTSecret with
        | Except.error _ =>
          { response := writeJSONResponse "500 Internal Server Error"
              [("ok", JSONValue.bool false),
               ("error", JSONValue.string (lit "Failed to generate token"))],
            events := [Event.GenerateJWT req.Username] }
        | Except.ok (token, expiresAt) =>
          { response := writeJSONResponse "200 OK"
              [("ok", JSONValue.bool true),
               ("token", JSONValue.string token),
               ("expiresAt", JSONValue.number (expiresAt / second)),
               ("username", JSONValue.string req.Username)],
            events := [Event.GenerateJWT req.Username] }

/-- Go `HandleAPIVerify`. -/
def HandleAPIVerify (w : World) (authHeader : GoString) (config : Config) : Result :=
  let token := TrimPrefix authHeader (lit "Bearer ")
  if token = authHeader then
    { response := writeJSONResponse "401 Unauthorized"
        [("ok", JSONValue.bool false),
         ("error", JSONValue.string (lit "Missing or invalid authorization header"))],
      events := [] }
  else
    match ValidateJWT w token config.JWTSecret with
    | Except.error _ =>
      { response := writeJSONResponse "401 Unauthorized"
          [("ok", JSONValue.bool false),
           ("error", JSONValue.string (lit "Invalid or expired token"))],
        events := [Event.ValidateJWT token] }
    | Except.ok claims =>
      { response := writeJSONResponse "200 OK"
          [("ok", JSONValue.bool true),
           ("username", JSONValue.string claims.Username)],
        events := [Event.ValidateJWT token] }

/-- The built-in `copy(dst, src)`: the first `min(len(dst), len(src))` bytes of
`dst` are overwritten with those of `src`. -/
def copy (dst src : GoString) : GoString :=
  src.take (min dst.length src.length) ++ dst.drop (min dst.length src.length)

/-- Go `make([]byte, n)`: `n` zero bytes. -/
def make (n : Nat) : GoString := List.replicate n 0

/-- Go `GenerateRandomSecret`: the secret and the error. -/
def GenerateRandomSecret (w : World) : GoString × Option String :=
  match w.randRead with
  | none => ([], some "rand.Read failed")
  | some bytes => (copy (make 32) bytes, none)

/-- Go `fromHexChar` of `encoding/hex`. -/
def fromHexChar (c : Byte) : Option Nat :=
  if 48 ≤ c.val ∧ c.val ≤ 57 then some (c.val - 48)
  else if 97 ≤ c.val ∧ c.val ≤ 102 then some (c.val - 97 + 10)
  else if 65 ≤ c.val ∧ c.val ≤ 70 then some (c.val - 65 + 10)
  else none

/-- Go `hex.DecodeString`: the bytes decoded before the first error, and the error
(an invalid byte, or an odd length). -/
def hexDecodeString : GoString → GoString × Option String
  | [] => ([], none)
  | [c] =>
    match fromHexChar c with
    | none => ([], some "encoding/hex: invalid byte")
    | some _ => ([], some "encoding/hex: odd length hex string")
  | a :: b :: rest =>
    match fromHexChar a, fromHexChar b with
    | some hi, some lo =>
      let r := hexDecodeString rest
      (Fin.ofNat (hi * 16 + lo) :: r.1, r.2)
    | _, _ => ([], some "encoding/hex: invalid byte")

/-- Go `SecretFromString`: the secret and the error. -/
def SecretFromString (w : World) (s : GoString) : GoString × Option String :=
  if s = [] then GenerateRandomSecret w
  else if s.length = 64 then hexDecodeString s
  else (copy (make 32) s, none)

/-- A world for the examples: no file on disk, the embedded index page, JSON
bodies that never parse, a signer and a parser that always fail. -/
def emptyWorld : World :=
  { osReadFile := fun _ => ReadResult.notExist
    embedReadFile := fun name =>
      if name = lit "static/index.html" then ReadResult.data (lit "<html></html>")
      else ReadResult.notExist
    TypeByExtension := fun ext => if ext = lit ".html" then lit "text/html" else []
    Unmarshal := fun _ => none
    SignedString := fun _ _ => Except.error "no key"
    ParseWithClaims := fun _ _ => Except.error "no token"
    now := 0
    nowAgain := 0
    randRead := none }

/-- A world in which every body parses to an empty username and an empty
password and signing succeeds. -/
def permissiveWorld : World :=
  { emptyWorld with
    Unmarshal := fun _ => some { Username := [], Password := [] }
    SignedString := fun _ _ => Except.ok (lit "header.payload.signature") }

/-- A world for the login examples: the body "good" parses to admin and
hunter2, the body "bad" to admin and a wrong password, nothing else parses;
signing gives a fixed token, and that token alone is accepted on parsing. -/
def loginWorld : World :=
  { emptyWorld with
    Unmarshal := fun body =>
      if body = lit "good" then some { Username := lit "admin", Password := lit "hunter2" }
      else if body = lit "bad" then some { Username := lit "admin", Password := lit "hunter" }
      else none
    SignedString := fun _ _ => Except.ok (lit "header.payload.signature")
    ParseWithClaims := fun token _ =>
      if token = lit "header.payload.signature" then
        Except.ok
          { claims := some
              { Username := lit "admin", ExpiresAt := 86400, IssuedAt := 0,
                Issuer := lit "meridian-admin" }
            valid := true }
      else Except.error "token is malformed" }

/-- The configuration of the login examples. -/
def loginConfig : Config :=
  { Username := lit "admin", Password := lit "hunter2", JWTSecret := make 32 }

end Admin

/-! ## Theorems -/

namespace Cmd

/-- The closure pidcleanup touches neither the profile variables nor the
shutdown channel nor the end of the process. -/
theorem pidcleanup_keeps (p : Proc) :
    (pidcleanup p).ended = p.ended ∧ (pidcleanup p).shutdown = p.shutdown ∧
    (pidcleanup p).pprofcleanedup = p.pprofcleanedup ∧
    (pidcleanup p).memprofile = p.memprofile ∧
    (pidcleanup p).createErr = p.createErr ∧ (pidcleanup p).writeErr = p.writeErr ∧
    (pidcleanup p).nohup = p.nohup := by
  unfold pidcleanup
  split
  · split <;> simp
  · simp

/-- When no memory profile is asked for, or the cleanup has run, or the profile
can be created and written, pprofcleanup returns: the process has not ended,
the cleanup is marked as done and the shutdown channel is untouched. -/
theorem pprofcleanup_returns (p : Proc) (alive : p.ended = none)
    (hclean : p.pprofcleanedup = true ∨ p.memprofile = "" ∨
      (p.createErr = none ∧ p.writeErr = none)) :
    (pprofcleanup p).ended = none ∧ (pprofcleanup p).pprofcleanedup = true ∧
    (pprofcleanup p).shutdown = p.shutdown := by
  unfold pprofcleanup
  by_cases hdone : p.pprofcleanedup = true
  · simp [hdone, alive]
  · simp only [hdone, if_false]
    rcases hclean with h | h | ⟨h1, h2⟩
    · exact absurd h hdone
    · by_cases hc : p.cpuprofile = "" <;> simp [hc, h, alive]
    · by_cases hc : p.cpuprofile = "" <;> by_cases hm : p.memprofile = "" <;>
        simp [hc, hm, h1, h2, alive]

/-- C1, as amended: in a process that has not ended and in which pprofcleanup
returns (no memory profile is asked for, or the cleanup has already run, or
the memory profile can be created and written), the signal handler of main
maps the signals as documented.  With --nohup a SIGHUP leaves the process as
it was (no log line, no cleanup, no exit, no shutdown request); without it
SIGHUP ends the process with status 1; SIGINT ends it with status 2 and SIGQUIT
with status 3, whatever server.Serve returns; SIGTERM calls no os.Exit, sends
exactly one value on the shutdown channel, and the process then ends with
status 0 once server.Serve returns without error. -/
theorem signal_handler_outcomes (p : Proc) (alive : p.ended = none)
    (hclean : p.pprofcleanedup = true ∨ p.memprofile = "" ∨
      (p.createErr = none ∧ p.writeErr = none)) :
    (p.nohup = true → handleSignal Signal.SIGHUP p = p) ∧
    (p.nohup = false → ∀ serveErr,
      processEnd (handleSignal Signal.SIGHUP p) serveErr = Termination.status 1) ∧
    (∀ serveErr,
      processEnd (handleSignal Signal.SIGINT p) serveErr = Termination.status 2) ∧
    (∀ serveErr,
      processEnd (handleSignal Signal.SIGQUIT p) serveErr = Termination.status 3) ∧
    ((handleSignal Signal.SIGTERM p).ended = none ∧
      (handleSignal Signal.SIGTERM p).shutdown = p.shutdown ++ [true] ∧
      processEnd (handleSignal Signal.SIGTERM p) none = Termination.status 0) := by
  have hk := pidcleanup_keeps
  have hr : ∀ s : Signal,
      (pprofcleanup (pidcleanup { p with warned := p.warned ++ [s] })).ended = none ∧
      (pprofcleanup (pidcleanup { p with warned := p.warned ++ [s] })).pprofcleanedup = true ∧
      (pprofcleanup (pidcleanup { p with warned := p.warned ++ [s] })).shutdown
        = p.shutdown := by
    intro s
    have h1 := hk { p with warned := p.warned ++ [s] }
    have h2 := pprofcleanup_returns (pidcleanup { p with warned := p.warned ++ [s] })
      (by rw [h1.1]; exact alive)
      (by rw [h1.2.2.1, h1.2.2.2.1, h1.2.2.2.2.1, h1.2.2.2.2.2.1]; exact hclean)
    exact ⟨h2.1, h2.2.1, by rw [h2.2.2, h1.2.1]⟩
  have hINT : handleSignal Signal.SIGINT p =
      { pprofcleanup (pidcleanup { p with warned := p.warned ++ [Signal.SIGINT] }) with
        ended := some (Termination.status 2) } := by
    unfold handleSignal
    rw [if_neg (by simp)]
    simp only [(hr Signal.SIGINT).1]
  have hQUIT : handleSignal Signal.SIGQUIT p =
      { pprofcleanup (pidcleanup { p with warned := p.warned ++ [Signal.SIGQUIT] }) with
        ended := some (Termination.status 3) } := by
    unfold handleSignal
    rw [if_neg (by simp)]
    simp only [(hr Signal.SIGQUIT).1]
  have hTERM : handleSignal Signal.SIGTERM p =
      { pprofcleanup (pidcleanup { p with warned := p.warned ++ [Signal.SIGTERM] }) with
        shutdown := (pprofcleanup (pidcleanup
          { p with warned := p.warned ++ [Signal.SIGTERM] })).shutdown ++ [true] } := by
    unfold handleSignal
    rw [if_neg (by simp)]
    simp only [(hr Signal.SIGTERM).1]
  refine ⟨?_, ?_, ?_, ?_, ?_, ?_, ?_⟩
  · intro h
    unfold handleSignal
    rw [if_pos (by simp [h])]
  · intro h serveErr
    have hHUP : handleSignal Signal.SIGHUP p =
        { pprofcleanup (pidcleanup { p with warned := p.warned ++ [Signal.SIGHUP] }) with
          ended := some (Termination.status 1) } := by
      unfold handleSignal
      rw [if_neg (by simp [h])]
      simp only [(hr Signal.SIGHUP).1]
    rw [hHUP]
    rfl
  · intro serveErr
    rw [hINT]
    rfl
  · intro serveErr
    rw [hQUIT]
    rfl
  · rw [hTERM]
    exact (hr Signal.SIGTERM).1
  · rw [hTERM]
    show (pprofcleanup (pidcleanup _)).shutdown ++ [true] = p.shutdown ++ [true]
    rw [(hr Signal.SIGTERM).2.2]
  · have hend : (handleSignal Signal.SIGTERM p).ended = none := by
      rw [hTERM]
      exact (hr Signal.SIGTERM).1
    have hdone : (handleSignal Signal.SIGTERM p).pprofcleanedup = true := by
      rw [hTERM]
      exact (hr Signal.SIGTERM).2.1
    have h1 := hk (handleSignal Signal.SIGTERM p)
    have h2 := pprofcleanup_returns (pidcleanup (handleSignal Signal.SIGTERM p))
      (by rw [h1.1]; exact hend) (Or.inl (by rw [h1.2.2.1]; exact hdone))
    unfold processEnd
    rw [hend]
    show mainAfterServe _ none = _
    unfold mainAfterServe
    simp only [h2.1]

/-- C1, as amended, at the start state: the instance of the theorem, and the
handler run on SIGTERM and on SIGINT there. -/
theorem signal_handler_outcomes_witness :
    procStart.ended = none ∧
    (handleSignal Signal.SIGTERM procStart).shutdown = [] ++ [true] ∧
    processEnd (handleSignal Signal.SIGINT procStart) none = Termination.status 2 :=
  ⟨rfl, (signal_handler_outcomes procStart rfl (Or.inr (Or.inl rfl))).2.2.2.2.2.1,
    (signal_handler_outcomes procStart rfl (Or.inr (Or.inl rfl))).2.2.1 none⟩

/-- C1 as stated fails: started with -memprofile on a path that cannot be
created, SIGINT and SIGQUIT end the process in log.Fatal inside pprofcleanup
and not with status 2 or 3, and SIGTERM ends it there too, with no value sent
on the shutdown channel. -/
theorem signal_handler_fatal_counterexample :
    processEnd (handleSignal Signal.SIGINT procProfileFails) none =
      Termination.fatal ("could not create memory profile: " ++
        "open /nonexistent/mem.prof: no such file or directory") ∧
    processEnd (handleSignal Signal.SIGINT procProfileFails) none ≠ Termination.status 2 ∧
    processEnd (handleSignal Signal.SIGQUIT procProfileFails) none ≠ Termination.status 3 ∧
    (handleSignal Signal.SIGTERM procProfileFails).ended ≠ none ∧
    (handleSignal Signal.SIGTERM procProfileFails).shutdown = [] := by
  decide

/-- C4 at the failing input: started as "meridian-server" alone, with
MERIDIAN_PROTECTED_MODE (and every other variable) unset, main passes
ProtectedMode "no" to server.Serve, where the usage text promises "yes". -/
theorem protected_mode_default_is_no :
    optsProtectedMode (fun _ => "") ["meridian-server"] = some "no" := by
  decide

/-- The loop over the arguments leaves protectedMode alone unless it meets one
of the two spellings of the option. -/
theorem parseArgs_protectedMode (args : List String) :
    ∀ f : Flags,
      (∀ a ∈ args, a ≠ "--protected-mode" ∧ a ≠ "-protected-mode") →
      KeepsProtectedMode (parseArgs args f) f.protectedMode := by
  obtain ⟨n, hn⟩ : ∃ n, args.length = n := ⟨_, rfl⟩
  induction n using Nat.strong_induction_on generalizing args with
  | _ n ih =>
    intro f hargs
    match args, hn, hargs with
    | [], _, _ =>
      intro g hp
      rw [parseArgs.eq_def] at hp
      injection hp with hp
      rw [hp]
    | a :: rest, hn, hargs =>
      have h1 := (hargs a (by simp)).1
      have h2 := (hargs a (by simp)).2
      have hrest : ∀ b ∈ rest, b ≠ "--protected-mode" ∧ b ≠ "-protected-mode" :=
        fun b hb => hargs b (List.mem_cons_of_mem _ hb)
      have ih1 := fun f1 => ih rest.length (by simp at hn; omega) rest rfl f1 hrest
      rw [parseArgs.eq_def]
      simp only [h1, h2, or_self, if_false]
      have ih2 : ∀ v rest1, rest = v :: rest1 →
          ∀ f1, KeepsProtectedMode (parseArgs rest1 f1) f1.protectedMode := by
        intro v rest1 hv f1
        subst hv
        exact ih rest1.length (by simp at hn; omega) rest1 rfl f1
          (fun b hb => hrest b (List.mem_cons_of_mem _ hb))
      have stop : ∀ (r : ArgsResult) (pm : String),
          (∀ g, r ≠ ArgsResult.parsed g) → KeepsProtectedMode r pm :=
        fun r pm hr g hp => absurd hp (hr g)
      by_cases c1 : a = "--help"
      · rw [if_pos c1]; exact stop _ _ (by simp)
      rw [if_neg c1]
      by_cases c2 : a = "--version"
      · rw [if_pos c2]; exact stop _ _ (by simp)
      rw [if_neg c2]
      by_cases c3 : a = "--dev" ∨ a = "-dev"
      · rw [if_pos c3]; exact ih1 _
      rw [if_neg c3]
      by_cases c4 : a = "--nohup" ∨ a = "-nohup"
      · rw [if_pos c4]; exact ih1 _
      rw [if_neg c4]
      by_cases c5 : a = "--spinlock" ∨ a = "-spinlock"
      · rw [if_pos c5]; exact ih1 _
      rw [if_neg c5]
      by_cases c6 : a = "--appendonly" ∨ a = "-appendonly"
      · rw [if_pos c6]
        repeat' split
        all_goals first
          | exact ih2 _ _ rfl _
          | exact stop _ _ (fun g hp => by cases hp)
      rw [if_neg c6]
      by_cases c7 : a = "--appendfilename" ∨ a = "-appendfilename"
      · rw [if_pos c7]
        repeat' split
        all_goals first
          | exact ih2 _ _ rfl _
          | exact stop _ _ (fun g hp => by cases hp)
      rw [if_neg c7]
      by_cases c8 : a = "--queuefilename" ∨ a = "-queuefilename"
      · rw [if_pos c8]
        repeat' split
        all_goals first
          | exact ih2 _ _ rfl _
          | exact stop _ _ (fun g hp => by cases hp)
      rw [if_neg c8]
      by_cases c9 : a = "-o"
      · rw [if_pos c9]
        repeat' split
        all_goals first
          | exact ih2 _ _ rfl _
          | exact stop _ _ (fun g hp => by cases hp)
      rw [if_neg c9]
      by_cases c10 : a = "--http-transport" ∨ a = "-http-transport"
      · rw [if_pos c10]
        repeat' split
        all_goals first
          | exact ih2 _ _ rfl _
          | exact stop _ _ (fun g hp => by cases hp)
      rw [if_neg c10]
      by_cases c11 : a = "--threads" ∨ a = "-threads"
      · rw [if_pos c11]
        repeat' split
        all_goals first
          | exact ih2 _ _ rfl _
          | exact stop _ _ (fun g hp => by cases hp)
      rw [if_neg c11]
      by_cases c12 : a = "--evio" ∨ a = "-evio"
      · rw [if_pos c12]
        repeat' split
        all_goals first
          | exact ih2 _ _ rfl _
          | exact stop _ _ (fun g hp => by cases hp)
      rw [if_neg c12]
      exact ih1 _

/-- With MERIDIAN_PROTECTED_MODE unset or empty and no protected-mode option
among the arguments, every run of main that reaches server.Serve passes
ProtectedMode "no". -/
theorem protected_mode_default_general (env : Env) (arg0 : String) (args : List String)
    (henv : env "MERIDIAN_PROTECTED_MODE" = "")
    (hargs : ∀ a ∈ args, a ≠ "--protected-mode" ∧ a ≠ "-protected-mode")
    (pm : String) (h : optsProtectedMode env (arg0 :: args) = some pm) : pm = "no" := by
  have key := parseArgs_protectedMode args (initialFlags env arg0) hargs
  have hinit : (initialFlags env arg0).protectedMode = "no" := by
    simp [initialFlags, getEnv, henv]
  rw [hinit] at key
  unfold optsProtectedMode startup at h
  split at h
  · rename_i f hf
    split at hf
    · cases hf
    · cases hf
    · rename_i a0 rest _ _ heq
      injection hf with hf
      injection heq with h0 hr
      subst h0 hr
      injection h with h
      rw [← h]
      exact key f hf
    · rename_i heq
      cases heq
  · cases h

end Cmd

namespace Metrics

/-- A descriptor of the table without variable labels is not the replication
descriptor. -/
theorem unlabelled_desc_facts :
    ∀ p ∈ metricDescriptions, p.2.variableLabels = [] →
      p.2.fqName ≠ "meridian_replication_info" := by
  decide

/-- Joining a valid string to a string that leaves the loop in a state from
which it ends well gives a string that ends well. -/
theorem validLoop_append (a b : Bytes) (hb : validLoop [] b = true) :
    ∀ need, validLoop need a = true → validLoop need (a ++ b) = true := by
  induction a with
  | nil =>
    intro need h
    cases need with
    | nil => simpa using hb
    | cons x need => simp [validLoop] at h
  | cons c a ih =>
    intro need h
    cases need with
    | nil =>
      rw [List.cons_append, validLoop]
      rw [validLoop] at h
      by_cases hc : c.val < 0x80
      · rw [if_pos hc] at h ⊢
        exact ih [] h
      · rw [if_neg hc] at h ⊢
        cases hf : utf8First c.val with
        | none => rw [hf] at h; cases h
        | some need1 =>
          rw [hf] at h
          exact ih need1 h
    | cons x need =>
      obtain ⟨lo, hi⟩ := x
      rw [List.cons_append, validLoop]
      rw [validLoop] at h
      by_cases hc : lo ≤ c.val ∧ c.val ≤ hi
      · rw [if_pos hc] at h ⊢
        exact ih need h
      · rw [if_neg hc] at h
        cases h

/-- Two valid strings joined are a valid string. -/
theorem ValidString_append (a b : Bytes) (ha : ValidString a = true)
    (hb : ValidString b = true) : ValidString (a ++ b) = true :=
  validLoop_append a b hb [] ha

/-- A string of bytes below 0x80 is valid. -/
theorem ValidString_of_lt (l : Bytes) (h : ∀ b ∈ l, b.val < 0x80) : ValidString l = true := by
  unfold ValidString
  induction l with
  | nil => rfl
  | cons c l ih =>
    rw [validLoop, if_pos (h c (List.mem_cons_self _ _))]
    exact ih (fun b hb => h b (List.mem_cons_of_mem _ hb))

/-- A text of characters below 128 is a valid byte string. -/
theorem ValidString_ascii (t : String) (h : ∀ c ∈ t.data, c.toNat < 128) :
    ValidString (ascii t) = true := by
  apply ValidString_of_lt
  intro b hb
  unfold ascii at hb
  rw [List.mem_map] at hb
  obtain ⟨c, hc, rfl⟩ := hb
  have := h c hc
  show c.toNat % 256 < 128
  omega

/-- Every digit character is below 128. -/
theorem digitChar_lt (n : Nat) : (Nat.digitChar (n % 10)).toNat < 128 := by
  have h : n % 10 < 10 := Nat.mod_lt _ (by decide)
  generalize n % 10 = m at h
  interval_cases m <;> decide

/-- The digits of a number are characters below 128. -/
theorem toDigitsCore_lt (fuel : Nat) :
    ∀ (n : Nat) (ds : List Char), (∀ c ∈ ds, c.toNat < 128) →
      ∀ c ∈ Nat.toDigitsCore 10 fuel n ds, c.toNat < 128 := by
  induction fuel with
  | zero =>
    intro n ds h c hc
    exact h c hc
  | succ fuel ih =>
    intro n ds h c hc
    have hds : ∀ c ∈ Nat.digitChar (n % 10) :: ds, c.toNat < 128 := by
      intro c hc
      rcases List.mem_cons.1 hc with rfl | hc
      · exact digitChar_lt _
      · exact h c hc
    rw [Nat.toDigitsCore] at hc
    by_cases hz : n / 10 = 0
    · simp only [hz, if_true] at hc
      exact hds c hc
    · simp only [hz, if_false] at hc
      exact ih _ _ hds c hc

/-- The decimal text of an integer, as `%d` prints it, is a valid byte string. -/
theorem ValidString_int (i : Int) : ValidString (ascii (toString i)) = true := by
  apply ValidString_ascii
  have hnat : ∀ n : Nat, ∀ c ∈ (Nat.repr n).data, c.toNat < 128 := by
    intro n c hc
    exact toDigitsCore_lt _ _ [] (by simp) c hc
  cases i with
  | ofNat m => exact hnat m
  | negSucc m =>
    intro c hc
    have hc1 : c ∈ ("-" ++ Nat.repr (Nat.succ m)).data := hc
    rw [String.data_append, List.mem_append] at hc1
    rcases hc1 with h | h
    · have : c = '-' := by simpa using h
      rw [this]
      decide
    · exact hnat _ c h

/-- The label values of the replication gauge are four, and they are valid
when the follow host is. -/
theorem replLbls_valid (s : Server) (hhost : ValidString s.config.followHost = true) :
    (replLbls s).length = 4 ∧ (replLbls s).all ValidString = true := by
  unfold replLbls
  by_cases h : s.config.followHost = []
  · rw [if_neg (by simpa using h)]
    exact ⟨rfl, by decide⟩
  · rw [if_pos h]
    refine ⟨rfl, ?_⟩
    have h1 : ValidString (fmtHostPort s.config.followHost s.config.followPort) = true :=
      ValidString_append _ _ (ValidString_append _ _ hhost (by decide)) (ValidString_int _)
    have h2 : ∀ b, ValidString (fmtBool b) = true := by
      intro b
      cases b <;> decide
    have h0 : ValidString (ascii "follower") = true := by decide
    simp [h0, h1, h2]

/-- Sending in a run that has ended changes nothing. -/
theorem send_panicked (r : Run) (m : Option Metric) (h : r.panicked = true) : send r m = r := by
  simp [send, h]

/-- Sending a metric that was built appends it. -/
theorem send_some (r : Run) (x : Metric) (h : r.panicked = false) :
    send r (some x) = { sent := r.sent ++ [x], panicked := false } := by
  simp [send, h]

/-- The first loop of Collect, when the stats hold no number under the key of
a labelled descriptor: it does not panic, and every gauge it sends has a
descriptor of the table without variable labels. -/
theorem collectStats_spec (stats : String → StatVal) (order : List (String × Desc))
    (hsub : ∀ p ∈ order, p ∈ metricDescriptions)
    (hstats : ∀ key desc, (key, desc) ∈ metricDescriptions → desc.variableLabels ≠ [] →
      toFloat (stats key) = none) :
    ∀ r : Run, r.panicked = false →
      ∃ xs, collectStats stats order r = { sent := r.sent ++ xs, panicked := false } ∧
        ∀ x ∈ xs, x.desc.variableLabels = [] ∧ ∃ key, (key, x.desc) ∈ metricDescriptions := by
  induction order with
  | nil =>
    intro r hr
    refine ⟨[], ?_, by simp⟩
    cases r
    simp only [collectStats, List.append_nil]
    simp at hr
    rw [hr]
  | cons p rest ih =>
    obtain ⟨metric, descr⟩ := p
    intro r hr
    have hrest := ih (fun q hq => hsub q (List.mem_cons_of_mem _ hq))
    have hmem : (metric, descr) ∈ metricDescriptions := hsub _ (List.mem_cons_self _ _)
    cases hv : toFloat (stats metric) with
    | none =>
      obtain ⟨xs, hxs, hall⟩ := hrest r hr
      exact ⟨xs, by simp only [collectStats, hv]; exact hxs, hall⟩
    | some val =>
      have hnil : descr.variableLabels = [] := by
        by_contra hne
        rw [hstats metric descr hmem hne] at hv
        cases hv
      have hm : MustNewConstMetric (some descr) ValueType.GaugeValue val [] =
          some (Metric.mk descr ValueType.GaugeValue val []) := by
        simp [MustNewConstMetric, hnil]
      obtain ⟨xs, hxs, hall⟩ := hrest
        (Run.mk (r.sent ++ [Metric.mk descr ValueType.GaugeValue val []]) false) rfl
      refine ⟨Metric.mk descr ValueType.GaugeValue val [] :: xs, ?_, ?_⟩
      · simp only [collectStats, hv, hm, send_some r _ hr]
        rw [hxs]
        simp
      · intro x hx
        rcases List.mem_cons.1 hx with h | h
        · subst h
          exact ⟨hnil, metric, hmem⟩
        · exact hall x h

/-- The scan callback in closed form: nothing in a run that has ended, the
four gauges for a name that is valid UTF-8, and a panic before the first
gauge for a name that is not. -/
theorem collectCol_eq (key : Bytes) (col : Collection) (r : Run) :
    collectCol key col r =
      if r.panicked = true then r
      else if ValidString key = true then
        { sent := r.sent ++ colGauges key col, panicked := false }
      else { sent := r.sent, panicked := true } := by
  have h1 : descOf "collection_objects" = some
      ⟨"meridian_collection_objects", "Total number of objects per collection", ["col"]⟩ := by
    decide
  have h2 : descOf "collection_points" = some
      ⟨"meridian_collection_points", "Total number of points per collection", ["col"]⟩ := by
    decide
  have h3 : descOf "collection_strings" = some
      ⟨"meridian_collection_strings", "Total number of strings per collection", ["col"]⟩ := by
    decide
  have h4 : descOf "collection_weight" = some
      ⟨"meridian_collection_weight_bytes", "Total weight of collection in bytes", ["col"]⟩ := by
    decide
  obtain ⟨sent, panicked⟩ := r
  cases panicked with
  | true => simp [collectCol, send]
  | false =>
    by_cases hk : ValidString key = true
    · simp [collectCol, send, h1, h2, h3, h4, MustNewConstMetric, hk, colGauges, gauge]
    · simp [collectCol, send, h1, h2, h3, h4, MustNewConstMetric, hk]

/-- The scan does nothing in a run that has ended. -/
theorem scanCols_panicked (cat : Catalog) (r : Run) (h : r.panicked = true) :
    scanCols cat r = r := by
  induction cat with
  | nil => rfl
  | cons e rest ih =>
    obtain ⟨k, c⟩ := e
    rw [scanCols, collectCol_eq, if_pos h]
    exact ih

/-- Whatever the names are, the scan only adds gauges of collections to what
was sent. -/
theorem scanCols_sent (cat : Catalog) :
    ∀ r : Run, ∃ ys, (scanCols cat r).sent = r.sent ++ ys ∧
      ∀ y ∈ ys, ∃ k c, y ∈ colGauges k c := by
  induction cat with
  | nil => exact fun r => ⟨[], by simp [scanCols], by simp⟩
  | cons e rest ih =>
    obtain ⟨k, c⟩ := e
    intro r
    rw [scanCols, collectCol_eq]
    by_cases hp : r.panicked = true
    · rw [if_pos hp]
      exact ih r
    · rw [if_neg hp]
      by_cases hk : ValidString k = true
      · rw [if_pos hk]
        obtain ⟨ys, hys, hall⟩ := ih { sent := r.sent ++ colGauges k c, panicked := false }
        refine ⟨colGauges k c ++ ys, by rw [hys, List.append_assoc], ?_⟩
        intro y hy
        rcases List.mem_append.1 hy with h | h
        · exact ⟨k, c, h⟩
        · exact hall y h
      · rw [if_neg hk]
        obtain ⟨ys, hys, hall⟩ := ih { sent := r.sent, panicked := true }
        exact ⟨ys, hys, hall⟩

/-- The run of Collect up to the scan, when the stats hold no number under the
key of a labelled descriptor and the server id, the version and the follow
host are valid UTF-8: no panic, and what was sent are the gauges of the first
loop, which carry no label, then the server info, start time and replication
gauges. -/
theorem Collect_before_scan (s : Server) (order : List (String × Desc))
    (horder : order.Perm metricDescriptions)
    (hstats : ∀ key desc, (key, desc) ∈ metricDescriptions → desc.variableLabels ≠ [] →
      toFloat (s.stats key) = none)
    (hid : ValidString s.config.serverID = true) (hversion : ValidString s.version = true)
    (hhost : ValidString s.config.followHost = true) :
    ∃ xs,
      (∀ x ∈ xs, x.desc.variableLabels = [] ∧ ∃ key, (key, x.desc) ∈ metricDescriptions) ∧
      Collect s order = scanCols s.cols
        { sent := xs ++
            [ gauge "meridian_server_info" "Server info" ["id", "version"] 1
                [s.config.serverID, s.version],
              gauge "meridian_start_time_seconds" "" [] (s.started : ℚ) [],
              gauge "meridian_replication_info" "Replication info"
                ["role", "following", "caught_up", "caught_up_once"] 1 (replLbls s) ],
          panicked := false } := by
  obtain ⟨xs, hxs, hx⟩ := collectStats_spec s.stats order
    (fun p hp => horder.subset hp) hstats { sent := [], panicked := false } rfl
  refine ⟨xs, hx, ?_⟩
  have h1 : descOf "server_info" = some ⟨"meridian_server_info", "Server info",
      ["id", "version"]⟩ := by decide
  have h2 : descOf "start_time" = some ⟨"meridian_start_time_seconds", "", []⟩ := by decide
  have h3 : descOf "replication" = some ⟨"meridian_replication_info", "Replication info",
      ["role", "following", "caught_up", "caught_up_once"]⟩ := by decide
  obtain ⟨h4, h5⟩ := replLbls_valid s hhost
  unfold Collect
  simp only [hxs, h1, h2, h3, List.nil_append]
  simp [MustNewConstMetric, send, hid, hversion, h4, h5, gauge]

/-- The stats of the test server hold a number under no key of a labelled
descriptor. -/
theorem testServer_stats :
    ∀ key desc, (key, desc) ∈ metricDescriptions → desc.variableLabels ≠ [] →
      toFloat (testServer.stats key) = none := by
  intro key desc hmem hne
  simp [metricDescriptions] at hmem
  rcases hmem with h | h | h | h | h | h | h | h | h | h | h | h | h | h | h | h | h | h |
    h | h | h | h <;> obtain ⟨rfl, rfl⟩ := h <;> first
    | exact absurd rfl hne
    | (simp [testServer, toFloat])

/-- C2, as amended: whenever the stats hold no number under the key of a
labelled descriptor and the server id, the version and the follow host are
valid UTF-8, Collect sends exactly one gauge named meridian_replication_info
(whether or not the scan of the catalog panics afterwards); its value is 1 and
its label values (role, following, caught_up, caught_up_once) are ("leader",
"", "", "") when the follow host is empty and otherwise ("follower",
"host:port", the text of caughtUp(), the text of caughtUpOnce()). -/
theorem collect_replication_info (s : Server) (order : List (String × Desc))
    (horder : order.Perm metricDescriptions)
    (hstats : ∀ key desc, (key, desc) ∈ metricDescriptions → desc.variableLabels ≠ [] →
      toFloat (s.stats key) = none)
    (hid : ValidString s.config.serverID = true) (hversion : ValidString s.version = true)
    (hhost : ValidString s.config.followHost = true) :
    (Collect s order).sent.filter
        (fun x => decide (x.desc.fqName = "meridian_replication_info")) =
      [ gauge "meridian_replication_info" "Replication info"
          ["role", "following", "caught_up", "caught_up_once"] 1
          (if s.config.followHost = [] then [ascii "leader", ascii "", ascii "", ascii ""]
           else [ascii "follower",
                 s.config.followHost ++ ascii ":" ++ ascii (toString s.config.followPort),
                 ascii (if s.caughtUp then "true" else "false"),
                 ascii (if s.caughtUpOnce then "true" else "false")]) ] := by
  obtain ⟨xs, hx, hc⟩ := Collect_before_scan s order horder hstats hid hversion hhost
  obtain ⟨ys, hys, hy⟩ := scanCols_sent s.cols
    { sent := xs ++
        [ gauge "meridian_server_info" "Server info" ["id", "version"] 1
            [s.config.serverID, s.version],
          gauge "meridian_start_time_seconds" "" [] (s.started : ℚ) [],
          gauge "meridian_replication_info" "Replication info"
            ["role", "following", "caught_up", "caught_up_once"] 1 (replLbls s) ],
      panicked := false }
  rw [hc, hys]
  have hxs : xs.filter (fun x => decide (x.desc.fqName = "meridian_replication_info")) = [] := by
    rw [List.filter_eq_nil_iff]
    intro x hxm
    obtain ⟨hnil, key, hmem⟩ := hx x hxm
    have := unlabelled_desc_facts (key, x.desc) hmem hnil
    simpa using this
  have hys0 : ys.filter (fun x => decide (x.desc.fqName = "meridian_replication_info")) = [] := by
    rw [List.filter_eq_nil_iff]
    intro y hym
    obtain ⟨k, c, hmem⟩ := hy y hym
    simp [colGauges, gauge] at hmem
    rcases hmem with h | h | h | h <;> simp [h]
  have hl : replLbls s =
      (if s.config.followHost = [] then [ascii "leader", ascii "", ascii "", ascii ""]
       else [ascii "follower",
             s.config.followHost ++ ascii ":" ++ ascii (toString s.config.followPort),
             ascii (if s.caughtUp then "true" else "false"),
             ascii (if s.caughtUpOnce then "true" else "false")]) := by
    unfold replLbls fmtHostPort fmtBool
    by_cases h : s.config.followHost = [] <;> simp [h]
  rw [List.filter_append, List.filter_append, hxs, hys0, hl]
  simp [gauge]

/-- C2, as amended, on the leader of the metrics test: one replication gauge,
role "leader". -/
theorem collect_replication_info_witness :
    (Collect testServer metricDescriptions).sent.filter
        (fun x => decide (x.desc.fqName = "meridian_replication_info")) =
      [ gauge "meridian_replication_info" "Replication info"
          ["role", "following", "caught_up", "caught_up_once"] 1
          [ascii "leader", ascii "", ascii "", ascii ""] ] :=
  collect_replication_info testServer metricDescriptions (List.Perm.refl _) testServer_stats
    (by decide) (by decide) (by decide)

/-- C2 as stated fails: on a server that follows a host whose name is not
valid UTF-8 (the bytes h and 0xff), Collect panics when it builds the
replication gauge and sends no gauge named meridian_replication_info. -/
theorem collect_replication_counterexample :
    badHostServer.config.followHost = ascii "h" ++ [255] ∧
    (Collect badHostServer metricDescriptions).panicked = true ∧
    (Collect badHostServer metricDescriptions).sent.filter
        (fun x => decide (x.desc.fqName = "meridian_replication_info")) = [] := by
  decide

/-- The character test holds exactly when the second list is a contiguous part
of the first. -/
theorem containsChars_iff_part (s substr : List Char) :
    containsChars s substr = true ↔ substr <:+: s := by
  induction s with
  | nil => simp [containsChars, List.isEmpty_iff]
  | cons c rest ih =>
    rw [containsChars, Bool.or_eq_true, ih, List.infix_cons_iff,
      List.isPrefixOf_iff_prefix]

/-- A text placed between two others is contained in the whole. -/
theorem strContains_middle (a b c : String) : strContains (a ++ b ++ c) b = true := by
  unfold strContains
  rw [containsChars_iff_part]
  exact ⟨a.data, c.data, by simp [String.data_append]⟩

/-- C11: for every version string, the body written by MetricsIndexHandler
contains the link to the metrics endpoint, the text "<a href='/metrics'>" (and
so the "<a href" the test looks for), the title element "<title>Meridian
version</title>" and the heading "<h1>Meridian version</h1>". -/
theorem metrics_index_body (version : String) :
    strContains (MetricsIndexHandler version) "<a href='/metrics'>" = true ∧
    strContains (MetricsIndexHandler version) "<a href" = true ∧
    strContains (MetricsIndexHandler version)
      ("<title>Meridian " ++ version ++ "</title>") = true ∧
    strContains (MetricsIndexHandler version)
      ("<h1>Meridian " ++ version ++ "</h1>") = true := by
  refine ⟨?_, ?_, ?_, ?_⟩
  · have h := strContains_middle
      ("<html><head>\n<title>Meridian " ++ version ++ "</title></head>\n<body><h1>Meridian " ++
        version ++ "</h1>\n<p>")
      "<a href='/metrics'>" "Metrics</a></p>\n</body></html>"
    have e : MetricsIndexHandler version =
        ("<html><head>\n<title>Meridian " ++ version ++
          "</title></head>\n<body><h1>Meridian " ++ version ++ "</h1>\n<p>") ++
          "<a href='/metrics'>" ++ "Metrics</a></p>\n</body></html>" := by
      apply String.ext
      simp [MetricsIndexHandler, String.data_append]
    rw [e]
    exact h
  · have h := strContains_middle
      ("<html><head>\n<title>Meridian " ++ version ++ "</title></head>\n<body><h1>Meridian " ++
        version ++ "</h1>\n<p>")
      "<a href" "='/metrics'>Metrics</a></p>\n</body></html>"
    have e : MetricsIndexHandler version =
        ("<html><head>\n<title>Meridian " ++ version ++
          "</title></head>\n<body><h1>Meridian " ++ version ++ "</h1>\n<p>") ++
          "<a href" ++ "='/metrics'>Metrics</a></p>\n</body></html>" := by
      apply String.ext
      simp [MetricsIndexHandler, String.data_append]
    rw [e]
    exact h
  · have h := strContains_middle "<html><head>\n"
      ("<title>Meridian " ++ version ++ "</title>")
      ("</head>\n<body><h1>Meridian " ++ version ++
        "</h1>\n<p><a href='/metrics'>Metrics</a></p>\n</body></html>")
    have e : MetricsIndexHandler version =
        "<html><head>\n" ++ ("<title>Meridian " ++ version ++ "</title>") ++
          ("</head>\n<body><h1>Meridian " ++ version ++
            "</h1>\n<p><a href='/metrics'>Metrics</a></p>\n</body></html>") := by
      apply String.ext
      simp [MetricsIndexHandler, String.data_append]
    rw [e]
    exact h
  · have h := strContains_middle
      ("<html><head>\n<title>Meridian " ++ version ++ "</title></head>\n<body>")
      ("<h1>Meridian " ++ version ++ "</h1>")
      "\n<p><a href='/metrics'>Metrics</a></p>\n</body></html>"
    have e : MetricsIndexHandler version =
        ("<html><head>\n<title>Meridian " ++ version ++ "</title></head>\n<body>") ++
          ("<h1>Meridian " ++ version ++ "</h1>") ++
          "\n<p><a href='/metrics'>Metrics</a></p>\n</body></html>" := by
      apply String.ext
      simp [MetricsIndexHandler, String.data_append]
    rw [e]
    exact h

end Metrics

namespace Admin

/-- A bitwise or of two numbers is zero only when both are. -/
theorem lor_eq_zero_iff (x y : Nat) : x ||| y = 0 ↔ x = 0 ∧ y = 0 := by
  constructor
  · intro h
    have hb : ∀ i, x.testBit i = false ∧ y.testBit i = false := by
      intro i
      have := congrArg (fun n => Nat.testBit n i) h
      simpa using this
    constructor
    · apply Nat.eq_of_testBit_eq
      intro i
      simp [(hb i).1]
    · apply Nat.eq_of_testBit_eq
      intro i
      simp [(hb i).2]
  · rintro ⟨rfl, rfl⟩
    rfl

/-- The accumulator of ConstantTimeCompare stays a byte, and it ends at zero
only when it started at zero and the two sequences are equal. -/
theorem foldl_xor_eq_zero (x y : GoString) (hlen : x.length = y.length) (v : Nat)
    (hv : v < 256) :
    (List.zip x y).foldl (fun v p => (v ||| (p.1.val ^^^ p.2.val)) % 256) v < 256 ∧
    ((List.zip x y).foldl (fun v p => (v ||| (p.1.val ^^^ p.2.val)) % 256) v = 0 ↔
      v = 0 ∧ x = y) := by
  induction x generalizing y v with
  | nil =>
    cases y with
    | nil => simp [hv]
    | cons b y => simp at hlen
  | cons a x ih =>
    cases y with
    | nil => simp at hlen
    | cons b y =>
      have hlen1 : x.length = y.length := by simpa using hlen
      have hx : a.val ^^^ b.val < 2 ^ 8 := Nat.xor_lt_two_pow a.isLt b.isLt
      have ho : v ||| (a.val ^^^ b.val) < 2 ^ 8 := Nat.or_lt_two_pow hv hx
      have hmod : (v ||| (a.val ^^^ b.val)) % 256 = v ||| (a.val ^^^ b.val) :=
        Nat.mod_eq_of_lt ho
      obtain ⟨h1, h2⟩ := ih y hlen1 ((v ||| (a.val ^^^ b.val)) % 256) (Nat.mod_lt _ (by decide))
      refine ⟨by simpa using h1, ?_⟩
      simp only [List.zip_cons_cons, List.foldl_cons]
      rw [h2, hmod, lor_eq_zero_iff, Nat.xor_eq_zero]
      constructor
      · rintro ⟨⟨hv0, hab⟩, hxy⟩
        exact ⟨hv0, by rw [Fin.ext hab, hxy]⟩
      · rintro ⟨hv0, hxy⟩
        injection hxy with hab hxy
        exact ⟨⟨hv0, by rw [hab]⟩, hxy⟩

/-- The byte comparison with zero gives 1 for zero and 0 for another byte. -/
theorem ConstantTimeByteEq_zero (v : Nat) (hv : v < 256) :
    ConstantTimeByteEq (Fin.ofNat v) 0 = 1 ↔ v = 0 := by
  have hval : (Fin.ofNat v : Byte).val = v := Nat.mod_eq_of_lt hv
  unfold ConstantTimeByteEq
  rw [hval]
  simp only [Fin.val_zero, Nat.xor_zero, Nat.shiftRight_eq_div_pow]
  norm_num
  omega

/-- The comparison in constant time gives 1 exactly on equal sequences. -/
theorem ConstantTimeCompare_eq_one (x y : GoString) :
    ConstantTimeCompare x y = 1 ↔ x = y := by
  unfold ConstantTimeCompare
  by_cases hlen : x.length = y.length
  · obtain ⟨h1, h2⟩ := foldl_xor_eq_zero x y hlen 0 (by decide)
    simp only [hlen, ne_eq, not_true_eq_false, if_false]
    rw [ConstantTimeByteEq_zero _ h1, h2]
    simp
  · simp only [ne_eq, hlen, not_false_eq_true, if_true]
    constructor
    · intro h
      cases h
    · intro h
      exact absurd (congrArg List.length h) hlen

/-- The credentials are accepted exactly when both comparisons succeed. -/
theorem ValidateCredentials_true (username password : GoString) (config : Config) :
    ValidateCredentials username password config = true ↔
      username = config.Username ∧ password = config.Password := by
  simp [ValidateCredentials, ConstantTimeCompare_eq_one]

/-- C8: ValidateCredentials returns true exactly when the username is the
configured username and the password is the configured password, byte for
byte; a match of one of the two alone gives false, and so do inputs whose
length differs from the configured ones. -/
theorem validateCredentials_iff (username password : GoString) (config : Config) :
    (ValidateCredentials username password config = true ↔
      username = config.Username ∧ password = config.Password) ∧
    (username ≠ config.Username → ValidateCredentials username password config = false) ∧
    (password ≠ config.Password → ValidateCredentials username password config = false) ∧
    (username.length ≠ config.Username.length ∨ password.length ≠ config.Password.length →
      ValidateCredentials username password config = false) := by
  have key := ValidateCredentials_true username password config
  have hfalse : ¬ (username = config.Username ∧ password = config.Password) →
      ValidateCredentials username password config = false := by
    intro h
    cases hb : ValidateCredentials username password config with
    | false => rfl
    | true => exact absurd (key.1 hb) h
  refine ⟨key, ?_, ?_, ?_⟩
  · intro h
    exact hfalse (fun hc => h hc.1)
  · intro h
    exact hfalse (fun hc => h hc.2)
  · rintro (h | h)
    · exact hfalse (fun hc => h (congrArg List.length hc.1))
    · exact hfalse (fun hc => h (congrArg List.length hc.2))

/-- C8 on the example configuration: the right username with a password that
is a proper start of the configured one is refused. -/
theorem validateCredentials_iff_witness :
    ValidateCredentials (lit "admin") (lit "hunter") loginConfig = false :=
  (validateCredentials_iff (lit "admin") (lit "hunter") loginConfig).2.2.1 (by decide)

/-- C6: with an empty configured username or an empty configured password,
HandleAPILogin answers 403 Forbidden with ok=false and the error "Admin panel
not configured" for every request body, whatever the body parses to, and it
makes no call to GenerateJWT. -/
theorem handleAPILogin_not_configured (w : World) (body : GoString) (config : Config)
    (h : config.Username = [] ∨ config.Password = []) :
    HandleAPILogin w body config =
      { response :=
          { status := "403 Forbidden"
            contentType := lit "application/json"
            headers := []
            body := Body.json
              [("ok", JSONValue.bool false),
               ("error", JSONValue.string (lit "Admin panel not configured"))] }
        events := [] } := by
  simp [HandleAPILogin, h, writeJSONResponse, writeHTTPResponse]

/-- C6 on a server without admin credentials, for a body with an empty
username and an empty password. -/
theorem handleAPILogin_not_configured_witness :
    HandleAPILogin permissiveWorld (lit "\x7b\"username\":\"\",\"password\":\"\"\x7d")
        { Username := [], Password := [], JWTSecret := make 32 } =
      { response :=
          { status := "403 Forbidden"
            contentType := lit "application/json"
            headers := []
            body := Body.json
              [("ok", JSONValue.bool false),
               ("error", JSONValue.string (lit "Admin panel not configured"))] }
        events := [] } :=
  handleAPILogin_not_configured permissiveWorld _ _ (Or.inl rfl)

/-- C7: for a configured admin and every request body, HandleAPILogin answers
200 OK exactly when the body parses, the parsed username and password are the
configured ones byte for byte, and GenerateJWT succeeds; the answer then
carries the token, its expiry and the submitted username.  A body that does
not parse gets 400 Bad Request, and a body that parses to other credentials
gets 401 Unauthorized with the error "Invalid credentials" and no call to
GenerateJWT. -/
theorem handleAPILogin_configured (w : World) (body : GoString) (config : Config)
    (hu : config.Username ≠ []) (hp : config.Password ≠ []) :
    ((HandleAPILogin w body config).response.status = "200 OK" ↔
      ∃ req token expiresAt, w.Unmarshal body = some req ∧
        req.Username = config.Username ∧ req.Password = config.Password ∧
        GenerateJWT w req.Username config.JWTSecret = Except.ok (token, expiresAt)) ∧
    (∀ req token expiresAt, w.Unmarshal body = some req →
      req.Username = config.Username → req.Password = config.Password →
      GenerateJWT w req.Username config.JWTSecret = Except.ok (token, expiresAt) →
      HandleAPILogin w body config =
        { response :=
            { status := "200 OK"
              contentType := lit "application/json"
              headers := []
              body := Body.json
                [("ok", JSONValue.bool true),
                 ("token", JSONValue.string token),
                 ("expiresAt", JSONValue.number (expiresAt / second)),
                 ("username", JSONValue.string req.Username)] }
          events := [Event.GenerateJWT req.Username] }) ∧
    (w.Unmarshal body = none →
      HandleAPILogin w body config =
        { response :=
            { status := "400 Bad Request"
              contentType := lit "application/json"
              headers := []
              body := Body.json
                [("ok", JSONValue.bool false),
                 ("error", JSONValue.string (lit "Invalid request body"))] }
          events := [] }) ∧
    (∀ req, w.Unmarshal body = some req →
      ¬ (req.Username = config.Username ∧ req.Password = config.Password) →
      HandleAPILogin w body config =
        { response :=
            { status := "401 Unauthorized"
              contentType := lit "application/json"
              headers := []
              body := Body.json
                [("ok", JSONValue.bool false),
                 ("error", JSONValue.string (lit "Invalid credentials"))] }
          events := [] }) := by
  have hcfg : ¬ (config.Username = [] ∨ config.Password = []) := by
    rintro (h | h)
    · exact hu h
    · exact hp h
  refine ⟨?_, ?_, ?_, ?_⟩
  · unfold HandleAPILogin
    rw [if_neg hcfg]
    cases hreq : w.Unmarshal body with
    | none => simp [writeJSONResponse, writeHTTPResponse]
    | some req =>
      by_cases hv : ValidateCredentials req.Username req.Password config = true
      · have hcred := (ValidateCredentials_true _ _ _).1 hv
        cases hg : GenerateJWT w req.Username config.JWTSecret with
        | error err => simp [hv, hg, writeJSONResponse, writeHTTPResponse]
        | ok pair =>
          obtain ⟨token, expiresAt⟩ := pair
          constructor
          · intro _
            exact ⟨req, token, expiresAt, rfl, hcred.1, hcred.2, hg⟩
          · intro _
            simp [hv, hg, writeJSONResponse, writeHTTPResponse]
      · have hcred : ¬ (req.Username = config.Username ∧ req.Password = config.Password) :=
          fun h => hv ((ValidateCredentials_true _ _ _).2 h)
        simp only [Bool.not_eq_true] at hv
        simp [hv, writeJSONResponse, writeHTTPResponse]
        intro h1 h2
        exact absurd ⟨h1, h2⟩ hcred
  · intro req token expiresAt hreq h1 h2 hg
    have hv := (ValidateCredentials_true req.Username req.Password config).2 ⟨h1, h2⟩
    unfold HandleAPILogin
    rw [if_neg hcfg]
    simp [hreq, hv, hg, writeJSONResponse, writeHTTPResponse]
  · intro hreq
    unfold HandleAPILogin
    rw [if_neg hcfg]
    simp [hreq, writeJSONResponse, writeHTTPResponse]
  · intro req hreq hcred
    have hv : ValidateCredentials req.Username req.Password config = false := by
      cases hb : ValidateCredentials req.Username req.Password config with
      | false => rfl
      | true => exact absurd ((ValidateCredentials_true _ _ _).1 hb) hcred
    unfold HandleAPILogin
    rw [if_neg hcfg]
    simp [hreq, hv, writeJSONResponse, writeHTTPResponse]

/-- C7 on the example configuration: a wrong password gets 401 and no token. -/
theorem handleAPILogin_configured_witness :
    HandleAPILogin loginWorld (lit "bad") loginConfig =
      { response :=
          { status := "401 Unauthorized"
            contentType := lit "application/json"
            headers := []
            body := Body.json
              [("ok", JSONValue.bool false),
               ("error", JSONValue.string (lit "Invalid credentials"))] }
        events := [] } :=
  (handleAPILogin_configured loginWorld (lit "bad") loginConfig (by decide) (by decide)).2.2.2
    { Username := lit "admin", Password := lit "hunter" } (by decide) (by decide)

/-- TrimPrefix leaves alone a string that does not start with the prefix, and
otherwise cuts the prefix off. -/
theorem TrimPrefix_cases (s pre : GoString) :
    (HasPrefix s pre = false ∧ TrimPrefix s pre = s) ∨
    (HasPrefix s pre = true ∧ s = pre ++ TrimPrefix s pre) := by
  unfold TrimPrefix
  cases h : HasPrefix s pre with
  | false => exact Or.inl ⟨rfl, by simp⟩
  | true =>
    refine Or.inr ⟨rfl, ?_⟩
    have hp : pre <+: s := List.isPrefixOf_iff_prefix.1 h
    simpa using (List.prefix_iff_eq_append.1 hp).symm

/-- C9: an Authorization header that does not start with "Bearer " gets 401
Unauthorized with the error "Missing or invalid authorization header" and no
call to ValidateJWT; and whenever the answer is 200 OK, the header is "Bearer "
followed by a token that ValidateJWT accepts under config.JWTSecret, and the
answer carries the username of the claims of that token. -/
theorem handleAPIVerify_spec (w : World) (authHeader : GoString) (config : Config) :
    (HasPrefix authHeader (lit "Bearer ") = false →
      HandleAPIVerify w authHeader config =
        { response :=
            { status := "401 Unauthorized"
              contentType := lit "application/json"
              headers := []
              body := Body.json
                [("ok", JSONValue.bool false),
                 ("error", JSONValue.string (lit "Missing or invalid authorization header"))] }
          events := [] }) ∧
    ((HandleAPIVerify w authHeader config).response.status = "200 OK" →
      ∃ token claims, authHeader = lit "Bearer " ++ token ∧
        ValidateJWT w token config.JWTSecret = Except.ok claims ∧
        HandleAPIVerify w authHeader config =
          { response :=
              { status := "200 OK"
                contentType := lit "application/json"
                headers := []
                body := Body.json
                  [("ok", JSONValue.bool true),
                   ("username", JSONValue.string claims.Username)] }
            events := [Event.ValidateJWT token] }) := by
  refine ⟨?_, ?_⟩
  · intro h
    rcases TrimPrefix_cases authHeader (lit "Bearer ") with ⟨-, ht⟩ | ⟨hp, -⟩
    · simp [HandleAPIVerify, ht, writeJSONResponse, writeHTTPResponse]
    · rw [h] at hp
      cases hp
  · intro hs
    rcases TrimPrefix_cases authHeader (lit "Bearer ") with ⟨-, ht⟩ | ⟨-, ht⟩
    · simp [HandleAPIVerify, ht, writeJSONResponse, writeHTTPResponse] at hs
    · by_cases heq : TrimPrefix authHeader (lit "Bearer ") = authHeader
      · simp [HandleAPIVerify, heq, writeJSONResponse, writeHTTPResponse] at hs
      · cases hj : ValidateJWT w (TrimPrefix authHeader (lit "Bearer ")) config.JWTSecret with
        | error err =>
          simp [HandleAPIVerify, heq, hj, writeJSONResponse, writeHTTPResponse] at hs
        | ok claims =>
          refine ⟨TrimPrefix authHeader (lit "Bearer "), claims, ht, hj, ?_⟩
          simp [HandleAPIVerify, heq, hj, writeJSONResponse, writeHTTPResponse]

/-- C9 on a header with a lower-case scheme: 401 and no token validated. -/
theorem handleAPIVerify_spec_witness :
    HandleAPIVerify loginWorld (lit "bearer header.payload.signature") loginConfig =
      { response :=
          { status := "401 Unauthorized"
            contentType := lit "application/json"
            headers := []
            body := Body.json
              [("ok", JSONValue.bool false),
               ("error", JSONValue.string (lit "Missing or invalid authorization header"))] }
        events := [] } :=
  (handleAPIVerify_spec loginWorld (lit "bearer header.payload.signature") loginConfig).1
    (by decide)

/-- C10: for a non-empty string whose length is not 64, SecretFromString
returns no error and a secret of 32 bytes; its first min(len(s), 32) bytes are
the first bytes of s and the bytes after them are zero. -/
theorem secretFromString_pads (w : World) (s : GoString) (hne : s ≠ [])
    (hlen : s.length ≠ 64) :
    (SecretFromString w s).2 = none ∧
    (SecretFromString w s).1.length = 32 ∧
    (SecretFromString w s).1.take (min s.length 32) = s.take (min s.length 32) ∧
    (SecretFromString w s).1.drop (min s.length 32) =
      List.replicate (32 - min s.length 32) 0 := by
  have hs : SecretFromString w s =
      (s.take (min s.length 32) ++ List.replicate (32 - min s.length 32) (0 : Byte),
        none) := by
    unfold SecretFromString copy make
    rw [if_neg hne, if_neg hlen, List.drop_replicate, List.length_replicate,
      Nat.min_comm 32 s.length]
  have hl : (s.take (min s.length 32)).length = min s.length 32 := by
    rw [List.length_take]
    omega
  rw [hs]
  refine ⟨rfl, ?_, ?_, ?_⟩
  · show (s.take (min s.length 32) ++ List.replicate (32 - min s.length 32) (0 : Byte)).length
      = 32
    rw [List.length_append, hl, List.length_replicate]
    omega
  · exact List.take_left' hl
  · exact List.drop_left' hl

/-- C10 on the secret "abc": three bytes of the string, then 29 zero bytes. -/
theorem secretFromString_pads_witness :
    (SecretFromString emptyWorld (lit "abc")).2 = none ∧
    (SecretFromString emptyWorld (lit "abc")).1 = lit "abc" ++ List.replicate 29 0 :=
  ⟨(secretFromString_pads emptyWorld (lit "abc") (by decide) (by decide)).1, by decide⟩

/-- Contains holds exactly when the second string is a contiguous part of the
first. -/
theorem Contains_iff_part (s substr : GoString) :
    Contains s substr = true ↔ substr <:+: s := by
  induction s with
  | nil => simp [Contains, List.isEmpty_iff]
  | cons c rest ih =>
    rw [Contains, Bool.or_eq_true, ih, List.infix_cons_iff, HasPrefix,
      List.isPrefixOf_iff_prefix]

/-- A string without the substring has no part with it. -/
theorem Contains_false_of_part (s t substr : GoString) (ht : t <:+: s)
    (hs : Contains s substr = false) : Contains t substr = false := by
  cases h : Contains t substr with
  | false => rfl
  | true =>
    have := (Contains_iff_part s substr).2 (((Contains_iff_part t substr).1 h).trans ht)
    rw [hs] at this
    cases this

/-- Two strings without ".." give a string without ".." when they are joined,
unless the second one starts with a dot. -/
theorem no_dotdot_append (a b : GoString) (ha : Contains a [dot, dot] = false)
    (hb : Contains b [dot, dot] = false) (hh : b.head? ≠ some dot) :
    Contains (a ++ b) [dot, dot] = false := by
  induction a with
  | nil => simpa using hb
  | cons c a1 ih =>
    rw [Contains, Bool.or_eq_false_iff] at ha
    have ih1 := ih ha.2
    rw [List.cons_append, Contains, Bool.or_eq_false_iff]
    refine ⟨?_, ih1⟩
    cases a1 with
    | nil =>
      cases b with
      | nil => simp [HasPrefix, List.isPrefixOf]
      | cons x b1 =>
        have hx : x ≠ dot := fun h => hh (by simp [h])
        simp [HasPrefix, List.isPrefixOf, Ne.symm hx]
    | cons x a2 =>
      have := ha.1
      simp only [HasPrefix, List.isPrefixOf] at this
      simpa [HasPrefix, List.isPrefixOf] using this

/-- TrimSuffix cuts something off the end, if anything. -/
theorem TrimSuffix_append (s suf : GoString) : ∃ t, s = TrimSuffix s suf ++ t := by
  unfold TrimSuffix
  cases h : HasSuffix s suf with
  | false => exact ⟨[], by simp⟩
  | true =>
    have hp : suf <:+ s := List.isSuffixOf_iff_suffix.1 h
    exact ⟨suf, by simpa using (List.suffix_iff_eq_append.1 hp).symm⟩

/-- The embed path of a path without ".." has no "..", and neither has the
name read from disk in dev mode. -/
theorem embedPathOf_no_dotdot (path : GoString) (hp : Contains path (lit "..") = false) :
    Contains (embedPathOf path) (lit "..") = false ∧
    Contains (lit "internal/admin/" ++ embedPathOf path) (lit "..") = false := by
  have h1 : Contains (embedPathOf path) (lit "..") = false := by
    unfold embedPathOf
    simp only []
    split
    · decide
    · show Contains (TrimPrefix path (lit "/admin")) (lit "..") = false
      rcases TrimPrefix_cases path (lit "/admin") with ⟨-, ht⟩ | ⟨-, ht⟩
      · rw [ht]
        exact hp
      · refine Contains_false_of_part path _ _ ?_ hp
        exact ⟨lit "/admin", [], by simpa using ht.symm⟩
  exact ⟨h1, h1⟩

/-- The calls of writeHTTPFile: the call itself, at most one read from disk
and at most one read from the embedded files, both of names derived from the
path. -/
theorem writeHTTPFile_events (w : World) (path : GoString) (devMode : Bool) :
    ∀ e ∈ (writeHTTPFile w path devMode).events,
      e = Event.writeHTTPFile path ∨
      (devMode = true ∧ e = Event.osReadFile (lit "internal/admin/" ++ embedPathOf path)) ∨
      e = Event.embedReadFile (embedPathOf path) := by
  intro e he
  unfold writeHTTPFile at he
  cases devMode with
  | false =>
    simp at he
    rcases he with h | h
    · exact Or.inl h
    · exact Or.inr (Or.inr h)
  | true =>
    simp only [if_true] at he
    cases hr : w.osReadFile (lit "internal/admin/" ++ embedPathOf path) with
    | notExist =>
      simp [hr] at he
      rcases he with h | h | h
      · exact Or.inl h
      · exact Or.inr (Or.inl ⟨rfl, h⟩)
      · exact Or.inr (Or.inr h)
    | data bytes =>
      simp [hr] at he
      rcases he with h | h
      · exact Or.inl h
      · exact Or.inr (Or.inl ⟨rfl, h⟩)
    | failed err =>
      simp [hr] at he
      rcases he with h | h
      · exact Or.inl h
      · exact Or.inr (Or.inl ⟨rfl, h⟩)

/-- Every path HandleHTTP hands to writeHTTPFile is free of "..". -/
theorem HandleHTTP_path (w : World) (url : GoString) (config : Config) (devMode : Bool) :
    (HandleHTTP w url config devMode).events = [] ∨
    ∃ path, Contains path (lit "..") = false ∧
      HandleHTTP w url config devMode = writeHTTPFile w path devMode := by
  unfold HandleHTTP
  split
  · exact Or.inl rfl
  · rename_i hvalid
    have hv : (HasPrefix url (lit "/admin/") = true ∨ url = lit "/admin") ∧
        Contains url (lit "..") = false := by
      simp only [Bool.or_eq_true, Bool.and_eq_true, Bool.not_eq_true', bne_iff_ne, ne_eq,
        not_or, not_and, Bool.not_eq_true, Decidable.not_not] at hvalid
      refine ⟨?_, hvalid.2⟩
      cases hpre : HasPrefix url (lit "/admin/") with
      | true => exact Or.inl rfl
      | false => exact Or.inr (hvalid.1 hpre)
    split
    · exact Or.inr ⟨lit "/admin/index.html", by decide, rfl⟩
    · simp only []
      split
      · refine Or.inr ⟨_, ?_, rfl⟩
        have hadmin : HasPrefix url (lit "/admin") = true := by
          rcases hv.1 with h | h
          · have h1 : lit "/admin/" <+: url := List.isPrefixOf_iff_prefix.1 h
            have h2 : lit "/admin" <+: lit "/admin/" := ⟨lit "/", by decide⟩
            exact List.isPrefixOf_iff_prefix.2 (h2.trans h1)
          · rw [h]
            decide
        have hurl : url = lit "/admin" ++ TrimPrefix url (lit "/admin") := by
          rcases TrimPrefix_cases url (lit "/admin") with ⟨hf, -⟩ | ⟨-, ht⟩
          · rw [hadmin] at hf
            cases hf
          · exact ht
        obtain ⟨t, ht⟩ := TrimSuffix_append (TrimPrefix url (lit "/admin")) (lit "/")
        have hpart : Contains (lit "/admin" ++ TrimSuffix (TrimPrefix url (lit "/admin")) (lit "/"))
            (lit "..") = false := by
          refine Contains_false_of_part url _ _ ?_ hv.2
          refine ⟨[], t, ?_⟩
          rw [List.nil_append, List.append_assoc, ← ht, ← hurl]
        exact no_dotdot_append _ _ hpart (by decide) (by decide)
      · split
        · exact Or.inl rfl
        · exact Or.inr ⟨url, hv.2, rfl⟩

/-- C5: a url that is neither "/admin" nor starts with "/admin/", and a url
that contains "..", gets 404 Not Found from HandleHTTP without any call to
writeHTTPFile and without any read; and for every url, no name that is handed
to writeHTTPFile, read from disk or read from the embedded files contains
"..". -/
theorem handleHTTP_validates_url (w : World) (url : GoString) (config : Config)
    (devMode : Bool) :
    (((url ≠ lit "/admin" ∧ HasPrefix url (lit "/admin/") = false) ∨
        Contains url (lit "..") = true) →
      HandleHTTP w url config devMode =
        { response :=
            { status := "404 Not Found"
              contentType := lit "text/html"
              headers := []
              body := Body.bytes (lit "<h1>404 Not Found</h1>\n") }
          events := [] }) ∧
    (∀ name,
      (Event.writeHTTPFile name ∈ (HandleHTTP w url config devMode).events ∨
        Event.osReadFile name ∈ (HandleHTTP w url config devMode).events ∨
        Event.embedReadFile name ∈ (HandleHTTP w url config devMode).events) →
      Contains name (lit "..") = false) := by
  refine ⟨?_, ?_⟩
  · intro h
    have hc : ((!HasPrefix url (lit "/admin/") && url != lit "/admin") ||
        Contains url (lit "..")) = true := by
      rcases h with ⟨h1, h2⟩ | h
      · simp [h1, h2]
      · simp [h]
    unfold HandleHTTP
    rw [if_pos hc]
    rfl
  · intro name hname
    rcases HandleHTTP_path w url config devMode with h | ⟨path, hp, h⟩
    · rw [h] at hname
      simp at hname
    · rw [h] at hname
      have hev := writeHTTPFile_events w path devMode
      have hemb := embedPathOf_no_dotdot path hp
      rcases hname with hn | hn | hn
      · rcases hev _ hn with e | ⟨-, e⟩ | e
        · injection e with e
          rw [e]
          exact hp
        · cases e
        · cases e
      · rcases hev _ hn with e | ⟨-, e⟩ | e
        · cases e
        · injection e with e
          rw [e]
          exact hemb.2
        · cases e
      · rcases hev _ hn with e | ⟨-, e⟩ | e
        · cases e
        · cases e
        · injection e with e
          rw [e]
          exact hemb.1

/-- C5 on a url that climbs out of the admin directory: 404, nothing read. -/
theorem handleHTTP_validates_url_witness :
    HandleHTTP emptyWorld (lit "/admin/../auth.go") loginConfig true =
      { response :=
          { status := "404 Not Found"
            contentType := lit "text/html"
            headers := []
            body := Body.bytes (lit "<h1>404 Not Found</h1>\n") }
        events := [] } :=
  (handleHTTP_validates_url emptyWorld (lit "/admin/../auth.go") loginConfig true).1
    (Or.inr (by decide))

end Admin

end Meridian
